import Mathlib

/-!
Verification development for the ComfyUI-Livepeer job lifecycle subsystem.

The definitions below are shallow embeddings of the Python source:

* `executeWithRetry` embeds `LivepeerBase.execute_with_retry`
  (src/src/livepeer_base.py, lines 118-234).  The external world seen by
  one attempt of the loop (the interruption flag sampled at each
  `check_interrupt()` site, the outcome of the worker thread, the
  poll-loop exit cause) is supplied as an environment `AttemptEnv`, one
  per attempt index.  The function returns the loop outcome together
  with the number of times the operation was started on a worker thread.
* `coreExecuteWithRetry` embeds the older variant
  `LivepeerBase.execute_with_retry` in src/livepeer_core.py (lines 73-95).
* `getOrProcessJobResult` and its helpers embed
  `LivepeerJobGetterBase` (src/src/livepeer_job_getter.py): the job
  store triage, projection, caching, terminal handling and the
  `IS_CHANGED` probe.  The per-modality `_process_raw_result` hook is a
  function field of `GetterConfig`, matching the subclass contract
  (returns `none` for the (None, None) failure signal).
* The trace semantics `SysState.step` adds the two store writers from
  src/src/livepeer_base.py: `trigger_async_job` / `_execute_livepeer_operation`
  (modelled as `triggerAsync` followed by one `finish` event holding the
  thread outcome) and `_store_sync_result`.
* `cleanupExpiredJobsPass` embeds one pass of
  `LivepeerJobService._cleanup_expired_jobs` (src/src/livepeer_job_service.py,
  lines 255-284); that store keeps its status as a raw string, as the
  service is a separate singleton from the getter store.
-/


namespace Livepeer

/-! ## Retry executor (src/src/livepeer_base.py, execute_with_retry) -/

/-- How the completion-poll loop of one attempt exits: the interruption
flag was observed (`cancelled`), the per-attempt timeout elapsed
(`timedOut`), or the worker thread set the `done` flag (`done`). -/
inductive PollOutcome where
  | cancelled
  | timedOut
  | done
deriving DecidableEq, Repr

/-- The external signals one attempt of the retry loop can observe:
the interruption flag at each `check_interrupt()` call site, and the
worker thread result container (`result_container`).  `workerError` is
`str(e)` of the captured exception. -/

structure AttemptEnv (ρ : Type) where
  interruptAtStart : Bool
  poll : PollOutcome
  interruptAfterPoll : Bool
  workerError : Option String
  workerResult : Option ρ
  interruptBeforeRetry : Bool
  interruptDuringDelay : Bool

/-- The `last_error` values of the loop, with their Python `str(...)`
renderings. -/

inductive RetryError where
  | timeout (secs : Nat)
  | opError (msg : String)
  | unknown
deriving DecidableEq, Repr

def RetryError.toMessage : RetryError → String
  | .timeout t => "Operation timed out after " ++ toString t ++ " seconds"
  | .opError m => m
  | .unknown =>
      "Unknown error: Operation thread finished but provided no result or error."

def lastErrorText : Option RetryError → String
  | none => "None"
  | some e => e.toMessage

/-- The message of the exhausted-retry `RuntimeError` built after the loop. -/

def exhaustedMessage (maxRetries : Nat) (lastError : Option RetryError) : String :=
  "Operation failed after " ++ toString maxRetries ++ " attempts. Last error: "
    ++ lastErrorText lastError

/-- Result of `execute_with_retry`: a returned response, a propagated
`InterruptProcessingException`, or the exhausted-retry failure
(raised or returned by `config_manager.handle_error`, in both cases
carrying `msg`). -/

inductive RetryResult (ρ : Type) where
  | success (r : ρ)
  | cancelled
  | exhausted (msg : String)
deriving DecidableEq, Repr

/-- Classification of one attempt after the poll loop, following lines
177-207 of src/src/livepeer_base.py: cancellation observed during the
poll loop or at the check right after it wins; then a timeout is a
failed attempt; then a worker exception is a failed attempt; then a
non-None result is success; a None result with no error is a failed
attempt with the unknown-error message. -/

inductive AttemptStep (ρ : Type) where
  | cancelled
  | success (r : ρ)
  | failed (err : RetryError)

def classifyAttempt (syncTimeout : Nat) (e : AttemptEnv ρ) : AttemptStep ρ :=
  match e.poll with
  | .cancelled => .cancelled
  | .timedOut =>
      if e.interruptAfterPoll then .cancelled
      else .failed (.timeout syncTimeout)
  | .done =>
      if e.interruptAfterPoll then .cancelled
      else
        match e.workerError with
        | some msg => .failed (.opError msg)
        | none =>
          match e.workerResult with
          | some r => .success r
          | none => .failed .unknown

/-- The `while attempts < max_retries` loop.  `remaining` is
`max_retries - attempts`; `attemptIdx` indexes the environment;
`invocations` counts worker threads started (one per attempt that
passes the `check_interrupt()` at the attempt start).  `retryDelay`
carries `current_retry_delay`, multiplied by the 1.5 backoff factor
after each failed attempt. -/

def retryGo (env : Nat → AttemptEnv ρ) (maxRetries syncTimeout : Nat) :
    Nat → Nat → ℚ → Option RetryError → Nat → RetryResult ρ × Nat
  | _, 0, _, lastError, invocations =>
      (.exhausted (exhaustedMessage maxRetries lastError), invocations)
  | attemptIdx, remaining + 1, retryDelay, _, invocations =>
      let e := env attemptIdx
      if e.interruptAtStart then (.cancelled, invocations)
      else
        match classifyAttempt syncTimeout e with
        | .cancelled => (.cancelled, invocations + 1)
        | .success r => (.success r, invocations + 1)
        | .failed err =>
            if e.interruptBeforeRetry then (.cancelled, invocations + 1)
            else if 0 < remaining ∧ e.interruptDuringDelay then
              (.cancelled, invocations + 1)
            else
              retryGo env maxRetries syncTimeout (attemptIdx + 1) remaining
                (retryDelay * (3 / 2)) (some err) (invocations + 1)

def executeWithRetry (env : Nat → AttemptEnv ρ) (maxRetries syncTimeout : Nat)
    (retryDelay : ℚ) : RetryResult ρ × Nat :=
  retryGo env maxRetries syncTimeout 0 maxRetries retryDelay none 0

/-! ## Older retry variant (src/livepeer_core.py, execute_with_retry) -/

/-- The older loop: run the operation inline, count the attempt on an
exception, raise `RuntimeError` once the budget is exhausted.  The
per-attempt outcome is supplied by `outcomes`; the second component
counts invocations. -/
def coreRetryGo (outcomes : Nat → Except String ρ) (maxRetries : Nat) :
    Nat → Nat → Option String → Except String ρ × Nat
  | _, 0, lastError =>
      (.error ("Failed after " ++ toString maxRetries ++ " attempts. Last error: "
        ++ (match lastError with | none => "None" | some s => s)), 0)
  | i, remaining + 1, _ =>
      match outcomes i with
      | .ok r => (.ok r, 1)
      | .error e =>
          let rest := coreRetryGo outcomes maxRetries (i + 1) remaining (some e)
          (rest.1, rest.2 + 1)

def coreExecuteWithRetry (outcomes : Nat → Except String ρ) (maxRetries : Nat) :
    Except String ρ × Nat :=
  coreRetryGo outcomes maxRetries 0 maxRetries none

/-- An environment in which every attempt runs to completion and the worker
thread captures an exception whose `str` is `errs i`: no interruption is
ever observed, no timeout fires. -/

def alwaysFailEnv {ρ : Type} (errs : Nat → String) : Nat → AttemptEnv ρ := fun i =>
  { interruptAtStart := false, poll := .done, interruptAfterPoll := false,
    workerError := some (errs i), workerResult := none,
    interruptBeforeRetry := false, interruptDuringDelay := false }

/-! ## Job store and getter (src/src/livepeer_job_getter.py)

A job record is a Python dict in `_livepeer_job_store`; the fields the
getter logic reads are modelled explicitly.  `ρ` is the raw vendor
response type, `κ` the bundle of all `PROCESSED_RESULT_KEYS` values of
one getter class (the per-modality key sets in the source are pairwise
disjoint, and a successful `_process_raw_result` always stores the full
key set, so presence is all-or-nothing and is modelled as `Option κ`),
`ω` the modality-specific leading output tuple.  `jobIdField` models the
optional `job_id` dict key read by `_handle_terminal_state`; no store
writer in the source ever sets it. -/

/-- The stored statuses.  `not_found` and `type_mismatch` are synthetic
getter-side statuses, never stored, and are therefore not constructors. -/
inductive Status where
  | pending
  | completed_pending_delivery
  | delivered
  | failed
  | processing_error
deriving DecidableEq, Repr

def statusStr : Status → String
  | .pending => "pending"
  | .completed_pending_delivery => "completed_pending_delivery"
  | .delivered => "delivered"
  | .failed => "failed"
  | .processing_error => "processing_error"

structure JobRecord (ρ κ : Type) where
  status : Status
  jtype : String
  result : Option ρ := none
  cache : Option κ := none
  error : Option String := none
  jobIdField : Option String := none
deriving DecidableEq, Repr

def Store (ρ κ : Type) := String → Option (JobRecord ρ κ)

/-- Pointwise update of a function keyed by strings (dict assignment /
`pop`). -/

def setFun {β : Type} (f : String → β) (k : String) (v : β) : String → β :=
  fun x => if x = k then v else f x

def Store.set (s : Store ρ κ) (k : String) (v : Option (JobRecord ρ κ)) : Store ρ κ :=
  setFun s k v

/-- Per-getter-class data: `EXPECTED_JOB_TYPES`, `PROCESSED_RESULT_KEYS`,
the `_process_raw_result` hook (returning `none` for the `(None, None)`
failure signal, which also absorbs the exception path since every
subclass catches and returns `(None, None)`), the reconstruction of the
output tuple from the stored cache keys, and `DEFAULT_OUTPUTS`. -/

structure GetterConfig (ρ κ ω : Type) where
  expectedJobTypes : List String
  processedResultKeys : List String
  processRaw : Option ρ → Option (ω × κ)
  cachedOutputs : κ → ω
  defaultOutputs : ω

/-- The fixed-arity getter return value: modality outputs plus the two
trailing `(job_status, error_message)` elements. -/

structure GetterOutput (ω : Type) where
  values : ω
  status : String
  errorMessage : Option String
deriving DecidableEq, Repr

/-- Python `a or b` for an optional string: an absent or empty string
falls back to the default. -/

def pyOr : Option String → String → String
  | none, d => d
  | some s, d => if s = "" then d else s

/-- The mutable state a getter call touches: the global job store,
`_node_instance_state` (unique_id -> {"current_job_id": v}) and the
per-node-instance `_last_delivered_id`. -/

structure GetterState (ρ κ : Type) where
  store : Store ρ κ
  nodeState : String → Option (Option String)
  lastDelivered : String → Option String

/-- Lines 219-228: update `_node_instance_state` for this `unique_id`.
Python truthiness: `None` and the empty string are falsy. -/

def updateNodeState (ns : String → Option (Option String)) (uid jobId : Option String) :
    String → Option (Option String) :=
  match uid with
  | none => ns
  | some u =>
    if u = "" then ns
    else
      match jobId with
      | some j =>
          if j ≠ "" then setFun ns u (some (some j))
          else if (ns u).isSome then setFun ns u (some none) else ns
      | none => if (ns u).isSome then setFun ns u (some none) else ns

/-- `_cleanup_supplanted_job` (lines 204-214): when the tracked job id
differs from the previously delivered one, pop the old record if it is
still `delivered`, and clear the tracker. -/

def cleanupSupplantedJob (store : Store ρ κ) (lastDel : String → Option String)
    (inst : String) (jobId : Option String) : Store ρ κ × (String → Option String) :=
  match lastDel inst with
  | none => (store, lastDel)
  | some l =>
      if jobId = some l then (store, lastDel)
      else
        let store' :=
          match store l with
          | some r => if r.status = .delivered then store.set l none else store
          | none => store
        (store', setFun lastDel inst none)

/-- `_get_job_info` (lines 142-154): returns a copy of the record, its
status string and its stored error. -/

def getJobInfo (store : Store ρ κ) (jobId : Option String) :
    Option (JobRecord ρ κ) × String × Option String :=
  match jobId with
  | none => (none, "not_found", some "No Job ID provided.")
  | some j =>
      if j = "" then (none, "not_found", some "No Job ID provided.")
      else
        match store j with
        | none => (none, "not_found", some ("Job ID " ++ j ++ " not found in store."))
        | some r => (some r, statusStr r.status, r.error)

/-- The dict fields `_handle_terminal_state` reads from its `job_info`
argument, which is either a record copy or the `\x7b'job_id': job_id\x7d`
fallback. -/

structure TerminalInfo where
  jobIdField : Option String
  jtypeField : Option String

/-- `_handle_terminal_state` (lines 166-202).  The pop key is
`job_info.get('job_id', 'N/A')`; store records are created without a
`job_id` key, so when `job_info` is a record copy this is the literal
string `"N/A"`. -/

def handleTerminalState (defaults : ω) (expected : List String) (store : Store ρ κ)
    (info : TerminalInfo) (status : String) (error : Option String) :
    GetterOutput ω × Store ρ κ :=
  let popId := info.jobIdField.getD "N/A"
  if status = "failed" then
    (⟨defaults, status, some (pyOr error "Unknown failure reason.")⟩, store.set popId none)
  else if status = "processing_error" then
    (⟨defaults, status, some (pyOr error "Unknown processing error.")⟩, store.set popId none)
  else if status = "not_found" then
    (⟨defaults, status, some (pyOr error ("Job ID " ++ popId ++ " not found."))⟩, store)
  else if status = "type_mismatch" then
    (⟨defaults, status,
        some (pyOr error ("Job type " ++ info.jtypeField.getD "None"
          ++ " does not match expected types "
          ++ String.intercalate ", " expected ++ " for this getter."))⟩,
      store.set popId none)
  else
    (⟨defaults, status, some ("Unexpected terminal state " ++ status ++ ".")⟩, store)

/-- `_update_job_store_processed` (lines 156-164): set the status and
merge the processed data into the record.  The success call site merges
the cache bundle; the failure call site merges an `error` entry. -/

def updateJobStoreProcessed (store : Store ρ κ) (jobId : String) (status : Status)
    (newCache : Option κ) (newError : Option String) : Store ρ κ :=
  match store jobId with
  | some r =>
      store.set jobId (some { r with
        status := status,
        cache := newCache.orElse fun _ => r.cache,
        error := newError.orElse fun _ => r.error })
  | none => store

/-- `_get_or_process_job_result` (lines 216-307).  Returns the output
tuple, the updated state, and whether `_process_raw_result` was invoked. -/

def getOrProcessJobResult (cfg : GetterConfig ρ κ ω) (st : GetterState ρ κ)
    (inst : String) (uid : Option String) (jobId : Option String) :
    GetterOutput ω × GetterState ρ κ × Bool :=
  let ns := updateNodeState st.nodeState uid jobId
  let cleaned := cleanupSupplantedJob st.store st.lastDelivered inst jobId
  let store1 := cleaned.1
  let lastDel1 := cleaned.2
  let info := getJobInfo store1 jobId
  let jobInfo := info.1
  let status := info.2.1
  let error := info.2.2
  let jid := jobId.getD ""
  if status = "not_found" ∨ status = "failed" ∨ status = "processing_error" then
    let tinfo : TerminalInfo :=
      match jobInfo with
      | some r => ⟨r.jobIdField, some r.jtype⟩
      | none => ⟨jobId, none⟩
    let hres := handleTerminalState cfg.defaultOutputs cfg.expectedJobTypes store1
      tinfo status error
    (hres.1, ⟨hres.2, ns, lastDel1⟩, false)
  else
    let jobType : Option String := jobInfo.map (·.jtype)
    if (match jobType with
        | some t => decide (t ∈ cfg.expectedJobTypes)
        | none => false) = false then
      let mism := "Expected one of " ++ String.intercalate ", " cfg.expectedJobTypes
        ++ ", got " ++ jobType.getD "None"
      let tinfo : TerminalInfo :=
        match jobInfo with
        | some r => ⟨r.jobIdField, some r.jtype⟩
        | none => ⟨jobId, none⟩
      let hres := handleTerminalState cfg.defaultOutputs cfg.expectedJobTypes store1
        tinfo "type_mismatch" (some mism)
      (hres.1, ⟨hres.2, ns, lastDel1⟩, false)
    else if status = "pending" then
      (⟨cfg.defaultOutputs, status, some "Job is pending."⟩, ⟨store1, ns, lastDel1⟩, false)
    else
      let cacheBundle := jobInfo.bind (·.cache)
      let needsProcessing : Option Bool :=
        if status = "completed_pending_delivery" then some true
        else if status = "delivered" then some cacheBundle.isNone
        else none
      match needsProcessing with
      | none =>
          (⟨cfg.defaultOutputs, status, some ("Unexpected status " ++ status ++ ".")⟩,
            ⟨store1, ns, lastDel1⟩, false)
      | some true =>
          match cfg.processRaw (jobInfo.bind (·.result)) with
          | some pr =>
              let store2 := updateJobStoreProcessed store1 jid .delivered (some pr.2) none
              (⟨pr.1, "delivered", none⟩, ⟨store2, ns, setFun lastDel1 inst jobId⟩, true)
          | none =>
              let msg := "Processing function failed for job " ++ jid ++ " ("
                ++ jobType.getD "None" ++ ")."
              let store2 := updateJobStoreProcessed store1 jid .processing_error none (some msg)
              (⟨cfg.defaultOutputs, "processing_error", some msg⟩,
                ⟨store2, ns, lastDel1⟩, true)
      | some false =>
          let outs :=
            match cacheBundle with
            | some c => cfg.cachedOutputs c
            | none => cfg.defaultOutputs
          (⟨outs, status, some "Results previously delivered."⟩,
            ⟨store1, ns, setFun lastDel1 inst jobId⟩, false)

def c6cfg : GetterConfig Nat Nat Nat := ⟨["t2i"], ["k"], fun _ => none, fun c => c, 0⟩

def c6record : JobRecord Nat Nat := { status := .delivered, jtype := "t2i", cache := some 7 }

def c6state : GetterState Nat Nat :=
  ⟨fun x => if x = "j" then some c6record else none, fun _ => none, fun _ => none⟩

/-! ### The terminal-state eviction slip (C8)

`_handle_terminal_state` retrieves its pop key via
`job_info.get('job_id', 'N/A')`, but no store writer ever puts a
`job_id` key into a record, so for `failed` / `processing_error` /
`type_mismatch` records the pop targets the literal key `"N/A"` and the
record survives.  The following closed theorem evaluates the embedded
code on a failed job: the call reports `failed`, the record is still in
the store afterwards, and a second call still reports `failed` rather
than `not_found`. -/

def bugRecord : JobRecord Nat Nat :=
  { status := .failed, jtype := "t2i", error := some "boom" }

def bugState : GetterState Nat Nat :=
  ⟨fun x => if x = "j1" then some bugRecord else none, fun _ => none, fun _ => none⟩

def bugCfg : GetterConfig Nat Nat Nat :=
  ⟨["t2i"], ["k"], fun _ => none, fun c => c, 0⟩

/-! ## The re-execution probe `IS_CHANGED` (lines 85-139) -/

/-- The value returned by `IS_CHANGED`: either `time.time()` (a fresh
clock reading, modelled as the tick `t` at which the host calls the
probe) or the stable job id string. -/
inductive ChangedVal where
  | vtime (t : Nat)
  | stable (id : String)
deriving DecidableEq, Repr

/-- `IS_CHANGED`: reads `_node_instance_state` and the job store, never
writes either (the model returns only a value).  Terminal-and-processed
jobs yield the stable job id; everything else yields the current time. -/

def isChanged (cfg : GetterConfig ρ κ ω) (uid : Option String)
    (ns : String → Option (Option String)) (store : Store ρ κ) (t : Nat) : ChangedVal :=
  match uid with
  | none => .vtime t
  | some u =>
    match (ns u).join with
    | none => .vtime t
    | some j =>
      if j = "" then .vtime t
      else
        let jobInfo := store j
        let currentStatus :=
          match jobInfo with
          | some r => statusStr r.status
          | none => "not_found"
        if currentStatus = "delivered" ∨ currentStatus = "failed" ∨
            currentStatus = "processing_error" ∨ currentStatus = "type_mismatch" then
          if currentStatus = "delivered" then
            let processed :=
              match jobInfo with
              | some r =>
                  if cfg.processedResultKeys = [] then true else r.cache.isSome
              | none => false
            if processed then .stable j else .vtime t
          else .stable j
        else .vtime t

/-! ## The service-variant cleanup sweep (src/src/livepeer_job_service.py) -/

/-- A record of the `LivepeerJobService` store.  That store keeps its
status as a raw string (the sweep compares against the literal list
`['delivered', 'failed', 'error']`). -/
structure ServiceJobRecord where
  status : String
  jtype : String
  createdAt : Nat
  lastUpdated : Nat
  nodesUsing : List String
deriving DecidableEq, Repr

/-- The expiry threshold of `_cleanup_expired_jobs` (seconds). -/

def jobExpirySeconds : Nat := 3600

/-- The `time.sleep(300)` period between sweeps (seconds). -/

def cleanupSweepIntervalSeconds : Nat := 300

/-- The removal condition of one sweep iteration (lines 271-277):
terminal status, no nodes using, older than the expiry threshold. -/

def shouldCleanup (job : ServiceJobRecord) (now : Nat) : Bool :=
  decide (job.status ∈ (["delivered", "failed", "error"] : List String)) &&
  job.nodesUsing.isEmpty && decide (jobExpirySeconds < now - job.lastUpdated)

/-- One pass of the cleanup loop body: delete exactly the records
satisfying `shouldCleanup`. -/

def cleanupExpiredJobsPass (jobs : String → Option ServiceJobRecord) (now : Nat) :
    String → Option ServiceJobRecord :=
  fun id =>
    match jobs id with
    | some j => if shouldCleanup j now then none else some j
    | none => none

/-! ## Trace semantics for the job-store writers

The three writers of `_livepeer_job_store` are modelled as events:
`triggerAsync` is `trigger_async_job` (fresh uuid, `pending` record,
background thread spawned — its eventual outcome is carried by the
event and applied by a later `finish` event, at most once, which is
`_execute_livepeer_operation`'s final store write); `storeSync` is
`_store_sync_result`; `getterCall` is one invocation of
`_get_or_process_job_result`.  Fresh-uuid generation is modelled by the
`everCreated` guard: an id is never created twice. -/

structure SysState (ρ κ : Type) where
  gs : GetterState ρ κ
  inflight : String → Option (Except String ρ)
  everCreated : String → Bool

inductive Event (ρ κ ω : Type) where
  | triggerAsync (id : String) (jtype : String) (outcome : Except String ρ)
  | finish (id : String)
  | storeSync (id : String) (jtype : String) (result : ρ)
  | getterCall (cfg : GetterConfig ρ κ ω) (inst : String) (uid : Option String)
      (jobId : Option String)

def SysState.init : SysState ρ κ :=
  ⟨⟨fun _ => none, fun _ => none, fun _ => none⟩, fun _ => none, fun _ => false⟩

/-- One event step.  The second component reports the job id projected by
`_process_raw_result` during this step, if any. -/

def SysState.step (s : SysState ρ κ) : Event ρ κ ω → SysState ρ κ × Option String
  | .triggerAsync id jtype outcome =>
      if s.everCreated id then (s, none)
      else
        ({ gs := { s.gs with
              store := s.gs.store.set id (some { status := .pending, jtype := jtype }) },
           inflight := setFun s.inflight id (some outcome),
           everCreated := setFun s.everCreated id true }, none)
  | .finish id =>
      match s.inflight id with
      | none => (s, none)
      | some outcome =>
          let store' :=
            match s.gs.store id with
            | none => s.gs.store
            | some r =>
                match outcome with
                | .ok v => s.gs.store.set id
                    (some { r with status := .completed_pending_delivery, result := some v })
                | .error e => s.gs.store.set id
                    (some { r with status := .failed, error := some e })
          ({ gs := { s.gs with store := store' },
             inflight := setFun s.inflight id none,
             everCreated := s.everCreated }, none)
  | .storeSync id jtype result =>
      if s.everCreated id then (s, none)
      else
        ({ gs := { s.gs with
              store := s.gs.store.set id
                (some { status := .completed_pending_delivery, jtype := jtype,
                        result := some result }) },
           inflight := s.inflight,
           everCreated := setFun s.everCreated id true }, none)
  | .getterCall cfg inst uid jobId =>
      let res := getOrProcessJobResult cfg s.gs inst uid jobId
      ({ s with gs := res.2.1 }, if res.2.2 then jobId else none)

def runEvents (evs : List (Event ρ κ ω)) : SysState ρ κ :=
  evs.foldl (fun s e => (s.step e).1) .init

/-- Number of projector invocations for `id` along a trace starting in `s`. -/

def runCountFrom (s : SysState ρ κ) (id : String) : List (Event ρ κ ω) → Nat
  | [] => 0
  | e :: rest =>
      (if (s.step e).2 = some id then 1 else 0) + runCountFrom (s.step e).1 id rest

/-- Reachable-state invariant: an id with an unapplied background outcome
still has a `pending` record (or none); any stored record was created;
an unapplied outcome belongs to a created id; a `delivered` record has
its cache fields. -/

def GoodSys (s : SysState ρ κ) : Prop :=
  ∀ id,
    ((s.inflight id).isSome → ∀ r, s.gs.store id = some r → r.status = .pending) ∧
    ((s.gs.store id).isSome → s.everCreated id = true) ∧
    ((s.inflight id).isSome → s.everCreated id = true) ∧
    (∀ r, s.gs.store id = some r → r.status = .delivered → r.cache.isSome)

/-- An id whose projection opportunity is spent: created, no background
outcome pending, and any surviving record is fully delivered or in
`processing_error` — no future step can project it. -/

def Spent (s : SysState ρ κ) (id : String) : Prop :=
  s.everCreated id = true ∧ s.inflight id = none ∧
  ∀ r, s.gs.store id = some r →
    ((r.status = .delivered ∧ r.cache.isSome) ∨ r.status = .processing_error)

/-- The permitted proper status transitions of a record. -/

def allowedEdge : Status → Status → Bool
  | .pending, .completed_pending_delivery => true
  | .completed_pending_delivery, .delivered => true
  | .pending, .failed => true
  | .completed_pending_delivery, .processing_error => true
  | _, _ => false

def w1cfg : GetterConfig Nat Nat Nat := ⟨["t2i"], ["k"], fun _ => some (1, 2), fun c => c, 0⟩

def w1pre : List (Event Nat Nat Nat) := [Event.storeSync "j" "t2i" 5]

def w1get : Event Nat Nat Nat := Event.getterCall w1cfg "n" none (some "j")

/-! ## Lemmas and claim theorems -/

lemma classifyAttempt_alwaysFail {ρ : Type} (errs : Nat → String) (T i : Nat) :
    classifyAttempt T (alwaysFailEnv (ρ := ρ) errs i) = .failed (.opError (errs i)) := by
  simp [classifyAttempt, alwaysFailEnv]

lemma retryGo_alwaysFail {ρ : Type} (errs : Nat → String) (M T : Nat) :
    ∀ (n i inv : Nat) (d : ℚ) (le : Option RetryError),
    retryGo (ρ := ρ) (alwaysFailEnv errs) M T i (n + 1) d le inv
      = (.exhausted (exhaustedMessage M (some (.opError (errs (i + n))))), inv + n + 1) := by
  intro n
  induction n with
  | zero =>
      intro i inv d le
      rw [retryGo, classifyAttempt_alwaysFail]
      simp [alwaysFailEnv, retryGo]
  | succ n ih =>
      intro i inv d le
      rw [retryGo, classifyAttempt_alwaysFail]
      simp only [alwaysFailEnv, Bool.false_eq_true, if_false]
      rw [ih (i + 1) (inv + 1)]
      have h1 : i + 1 + n = i + (n + 1) := by omega
      have h2 : inv + 1 + n + 1 = inv + (n + 1) + 1 := by omega
      rw [h1, h2]
      simp

lemma coreRetryGo_alwaysFail {ρ : Type} (errs : Nat → String) (M : Nat) :
    ∀ (n i : Nat) (le : Option String),
    coreRetryGo (ρ := ρ) (fun j => .error (errs j)) M i (n + 1) le
      = (.error ("Failed after " ++ toString M ++ " attempts. Last error: "
          ++ errs (i + n)), n + 1) := by
  intro n
  induction n with
  | zero =>
      intro i le
      rw [coreRetryGo]
      simp [coreRetryGo]
  | succ n ih =>
      intro i le
      rw [coreRetryGo]
      simp only
      rw [ih (i + 1)]
      have h1 : i + 1 + n = i + (n + 1) := by omega
      rw [h1]

lemma classifyAttempt_success {ρ : Type} {T : Nat} {e : AttemptEnv ρ} {r : ρ} :
    classifyAttempt T e = .success r → e.workerError = none ∧ e.workerResult = some r := by
  unfold classifyAttempt
  cases e.poll with
  | cancelled => intro h; cases h
  | timedOut =>
      by_cases hip : e.interruptAfterPoll <;> intro h <;> simp [hip] at h
  | done =>
      by_cases hip : e.interruptAfterPoll
      · intro h; simp [hip] at h
      · simp only [hip, Bool.false_eq_true, if_false]
        cases hwe : e.workerError with
        | some m => intro h; cases h
        | none =>
            cases hwr : e.workerResult with
            | some v => intro h; cases h; exact ⟨rfl, rfl⟩
            | none => intro h; cases h

lemma retryGo_success {ρ : Type} {env : Nat → AttemptEnv ρ} {M T : Nat} :
    ∀ (rem i inv : Nat) (d : ℚ) (le : Option RetryError) (r : ρ),
    (retryGo env M T i rem d le inv).1 = .success r →
    ∃ j, i ≤ j ∧ j < i + rem ∧ (env j).workerError = none ∧ (env j).workerResult = some r := by
  intro rem
  induction rem with
  | zero => intro i inv d le r h; rw [retryGo] at h; cases h
  | succ n ih =>
      intro i inv d le r h
      rw [retryGo] at h
      by_cases hs : (env i).interruptAtStart
      · simp [hs] at h
      · simp only [hs, Bool.false_eq_true, if_false] at h
        cases hc : classifyAttempt T (env i) with
        | cancelled => rw [hc] at h; cases h
        | success r' =>
            rw [hc] at h
            simp only at h
            cases h
            obtain ⟨he, hr⟩ := classifyAttempt_success hc
            exact ⟨i, le_refl i, by omega, he, hr⟩
        | failed err =>
            rw [hc] at h
            simp only at h
            by_cases hbr : (env i).interruptBeforeRetry
            · simp [hbr] at h
            · simp only [hbr, Bool.false_eq_true, if_false] at h
              by_cases hdl : 0 < n ∧ (env i).interruptDuringDelay = true
              · rw [if_pos hdl] at h; cases h
              · rw [if_neg hdl] at h
                obtain ⟨j, hj1, hj2, hj3, hj4⟩ := ih (i + 1) (inv + 1) _ _ r h
                exact ⟨j, by omega, by omega, hj3, hj4⟩

/-- C2. With an attempt budget `N ≥ 1` and an operation that fails on
every attempt, `execute_with_retry` starts the operation exactly `N`
times and then reports an exhausted-retry failure whose message contains
the string of the last underlying error — in both the current
implementation (src/src/livepeer_base.py) and the older variant
(src/livepeer_core.py). -/

theorem execute_with_retry_exhausts_budget {ρ : Type} (N : Nat) (hN : 1 ≤ N)
    (errs : Nat → String) (syncTimeout : Nat) (retryDelay : ℚ) :
    executeWithRetry (ρ := ρ) (alwaysFailEnv errs) N syncTimeout retryDelay
        = (.exhausted ("Operation failed after " ++ toString N
            ++ " attempts. Last error: " ++ errs (N - 1)), N) ∧
    coreExecuteWithRetry (ρ := ρ) (fun i => .error (errs i)) N
        = (.error ("Failed after " ++ toString N ++ " attempts. Last error: "
            ++ errs (N - 1)), N) := by
  obtain ⟨n, rfl⟩ : ∃ n, N = n + 1 := ⟨N - 1, by omega⟩
  constructor
  · unfold executeWithRetry
    rw [retryGo_alwaysFail]
    simp [exhaustedMessage, lastErrorText, RetryError.toMessage]
  · unfold coreExecuteWithRetry
    rw [coreRetryGo_alwaysFail]
    simp

/-- Witness for C2 at `N = 3`. -/

theorem execute_with_retry_exhausts_budget_witness :
    executeWithRetry (ρ := Nat) (alwaysFailEnv fun i => toString i) 3 7 1
        = (.exhausted ("Operation failed after " ++ toString 3
            ++ " attempts. Last error: " ++ toString 2), 3) ∧
    coreExecuteWithRetry (ρ := Nat) (fun i => .error (toString i)) 3
        = (.error ("Failed after " ++ toString 3 ++ " attempts. Last error: "
            ++ toString 2), 3) :=
  execute_with_retry_exhausts_budget 3 (by omega) (fun i => toString i) 7 1

/-- C3. Cancellation preempts retries: if the interruption flag is
observed during the first attempt (in the poll loop, at the check
immediately after the poll loop exits, or during the retry-delay
sleep), `execute_with_retry` propagates the cancellation error with the
operation started at most once, regardless of remaining budget, and the
outcome is `cancelled`, never an ordinary retried failure. -/

theorem cancellation_preempts_retry {ρ : Type} (env : Nat → AttemptEnv ρ)
    (N T : Nat) (d : ℚ) (hN : 1 ≤ N) (hstart : (env 0).interruptAtStart = false) :
    ((env 0).poll = .cancelled →
        executeWithRetry env N T d = (.cancelled, 1)) ∧
    ((env 0).interruptAfterPoll = true →
        executeWithRetry env N T d = (.cancelled, 1)) ∧
    (∀ err, classifyAttempt T (env 0) = .failed err →
        (env 0).interruptBeforeRetry = false →
        (env 0).interruptDuringDelay = true → 2 ≤ N →
        executeWithRetry env N T d = (.cancelled, 1)) := by
  obtain ⟨n, rfl⟩ : ∃ n, N = n + 1 := ⟨N - 1, by omega⟩
  refine ⟨?_, ?_, ?_⟩
  · intro hp
    unfold executeWithRetry
    rw [retryGo]
    have hc : classifyAttempt T (env 0) = .cancelled := by
      unfold classifyAttempt; rw [hp]
    rw [hstart, hc]
    simp
  · intro hip
    unfold executeWithRetry
    rw [retryGo]
    have hc : classifyAttempt T (env 0) = .cancelled := by
      unfold classifyAttempt
      cases (env 0).poll <;> simp [hip]
    rw [hstart, hc]
    simp
  · intro err hc hbr hdl hN2
    unfold executeWithRetry
    rw [retryGo, hstart, hc]
    simp only [Bool.false_eq_true, if_false, hbr]
    rw [if_pos ⟨by omega, hdl⟩]

/-- Witness for C3: a concrete environment cancelled in the first poll loop,
with budget 5. -/

theorem cancellation_preempts_retry_witness :
    executeWithRetry (ρ := Nat)
      (fun _ => { interruptAtStart := false, poll := .cancelled,
                  interruptAfterPoll := false, workerError := none,
                  workerResult := none, interruptBeforeRetry := false,
                  interruptDuringDelay := false }) 5 7 1 = (.cancelled, 1) :=
  (cancellation_preempts_retry _ 5 7 1 (by omega) rfl).1 rfl

/-- C10. A worker thread that finishes without error but with a `None`
result is treated as a failed attempt carrying the unknown-error message
and consuming budget; `execute_with_retry` succeeds only with a non-None
operation result. -/

theorem retry_none_result_is_failure {ρ : Type} :
    (∀ (T : Nat) (e : AttemptEnv ρ), e.poll = .done → e.interruptAfterPoll = false →
        e.workerError = none → e.workerResult = none →
        classifyAttempt T e = .failed .unknown) ∧
    (∀ (T : Nat) (d : ℚ) (e : AttemptEnv ρ), e.interruptAtStart = false →
        e.poll = .done → e.interruptAfterPoll = false → e.workerError = none →
        e.workerResult = none → e.interruptBeforeRetry = false →
        executeWithRetry (fun _ => e) 1 T d
          = (.exhausted (exhaustedMessage 1 (some .unknown)), 1)) ∧
    (∀ (env : Nat → AttemptEnv ρ) (N T : Nat) (d : ℚ) (r : ρ),
        (executeWithRetry env N T d).1 = .success r →
        ∃ i, i < N ∧ (env i).workerError = none ∧ (env i).workerResult = some r) := by
  refine ⟨?_, ?_, ?_⟩
  · intro T e hp hip hwe hwr
    unfold classifyAttempt
    rw [hp, hwe, hwr]
    simp [hip]
  · intro T d e hs hp hip hwe hwr hbr
    have hc : classifyAttempt T e = .failed .unknown := by
      unfold classifyAttempt
      rw [hp, hwe, hwr]
      simp [hip]
    unfold executeWithRetry
    rw [retryGo, hs, hc]
    simp only [Bool.false_eq_true, if_false, hbr]
    rw [if_neg (by simp)]
    rw [retryGo]
  · intro env N T d r h
    obtain ⟨j, hj1, hj2, hj3, hj4⟩ := retryGo_success N 0 0 d none r h
    exact ⟨j, by omega, hj3, hj4⟩

/-- Witness for C10 at a concrete environment. -/

theorem retry_none_result_is_failure_witness :
    classifyAttempt (ρ := Nat) 7
        { interruptAtStart := false, poll := .done, interruptAfterPoll := false,
          workerError := none, workerResult := none,
          interruptBeforeRetry := false, interruptDuringDelay := false }
      = .failed .unknown :=
  retry_none_result_is_failure.1 7 _ rfl rfl rfl rfl

/-! ### Branch equations for `getOrProcessJobResult` -/

lemma cleanup_preserves_called (store : Store ρ κ) (lastDel : String → Option String)
    (inst j : String) :
    (cleanupSupplantedJob store lastDel inst (some j)).1 j = store j := by
  unfold cleanupSupplantedJob
  cases hl : lastDel inst with
  | none => rfl
  | some l =>
      dsimp only
      by_cases he : (some j : Option String) = some l
      · rw [if_pos he]
      · rw [if_neg he]
        have hj : j ≠ l := fun h => he (by rw [h])
        cases hsl : store l with
        | none => rfl
        | some r =>
            by_cases hr : r.status = .delivered
            · simp [hr, Store.set, setFun, hj]
            · simp [hr]

lemma cleanup_pointwise (store : Store ρ κ) (lastDel : String → Option String)
    (inst : String) (jobId : Option String) (k : String) :
    (cleanupSupplantedJob store lastDel inst jobId).1 k = store k ∨
    ((cleanupSupplantedJob store lastDel inst jobId).1 k = none ∧
      ∃ r, store k = some r ∧ r.status = .delivered) := by
  unfold cleanupSupplantedJob
  cases hl : lastDel inst with
  | none => exact Or.inl rfl
  | some l =>
      dsimp only
      by_cases he : jobId = some l
      · rw [if_pos he]; exact Or.inl rfl
      · rw [if_neg he]
        cases hsl : store l with
        | none => exact Or.inl rfl
        | some r =>
            by_cases hr : r.status = .delivered
            · by_cases hk : k = l
              · subst hk
                refine Or.inr ⟨?_, r, hsl, hr⟩
                simp [hr, Store.set, setFun]
              · left
                simp [hr, Store.set, setFun, hk]
            · left
              simp [hr]

lemma handleTerminalState_snd (defaults : ω) (expected : List String)
    (store : Store ρ κ) (info : TerminalInfo) (status : String)
    (error : Option String) (k : String) :
    (handleTerminalState defaults expected store info status error).2 k = store k ∨
    (handleTerminalState defaults expected store info status error).2 k = none := by
  unfold handleTerminalState
  split
  · by_cases hk : k = info.jobIdField.getD "N/A"
    · exact Or.inr (by simp [Store.set, setFun, hk])
    · exact Or.inl (by simp [Store.set, setFun, hk])
  · split
    · by_cases hk : k = info.jobIdField.getD "N/A"
      · exact Or.inr (by simp [Store.set, setFun, hk])
      · exact Or.inl (by simp [Store.set, setFun, hk])
    · split
      · exact Or.inl rfl
      · split
        · by_cases hk : k = info.jobIdField.getD "N/A"
          · exact Or.inr (by simp [Store.set, setFun, hk])
          · exact Or.inl (by simp [Store.set, setFun, hk])
        · exact Or.inl rfl

lemma handleTerminalState_fst (defaults : ω) (expected : List String)
    (store : Store ρ κ) (info : TerminalInfo) (status : String)
    (error : Option String) :
    (handleTerminalState defaults expected store info status error).1.status = status ∧
    (handleTerminalState defaults expected store info status error).1.values = defaults ∧
    (handleTerminalState defaults expected store info status error).1.errorMessage.isSome := by
  unfold handleTerminalState
  split
  · exact ⟨rfl, rfl, rfl⟩
  · split
    · exact ⟨rfl, rfl, rfl⟩
    · split
      · exact ⟨rfl, rfl, rfl⟩
      · split
        · exact ⟨rfl, rfl, rfl⟩
        · exact ⟨rfl, rfl, rfl⟩

lemma updateJobStoreProcessed_ne (store : Store ρ κ) (jobId : String)
    (status : Status) (c : Option κ) (e : Option String) (k : String) (hk : k ≠ jobId) :
    updateJobStoreProcessed store jobId status c e k = store k := by
  unfold updateJobStoreProcessed
  cases store jobId with
  | none => rfl
  | some r => simp [Store.set, setFun, hk]

lemma updateJobStoreProcessed_at (store : Store ρ κ) (jobId : String)
    (status : Status) (c : Option κ) (e : Option String) (r : JobRecord ρ κ)
    (hr : store jobId = some r) :
    updateJobStoreProcessed store jobId status c e jobId
      = some { r with
          status := status,
          cache := c.orElse fun _ => r.cache,
          error := e.orElse fun _ => r.error } := by
  unfold updateJobStoreProcessed
  rw [hr]
  simp [Store.set, setFun]

lemma getJobInfo_some (store : Store ρ κ) (j : String) (r : JobRecord ρ κ)
    (hj : j ≠ "") (hr : store j = some r) :
    getJobInfo store (some j) = (some r, statusStr r.status, r.error) := by
  unfold getJobInfo
  dsimp only
  rw [if_neg hj, hr]

lemma getJobInfo_absent (store : Store ρ κ) (j : String)
    (hj : j ≠ "") (hr : store j = none) :
    getJobInfo store (some j)
      = (none, "not_found", some ("Job ID " ++ j ++ " not found in store.")) := by
  unfold getJobInfo
  dsimp only
  rw [if_neg hj, hr]

lemma strcat_ne_empty (a b : String) (ha : a ≠ "") : a ++ b ≠ "" := by
  intro h
  apply ha
  have hd : a.data ++ b.data = [] := by
    have := congrArg String.data h
    simpa [String.data_append] using this
  have h1 : a.data = [] := (List.append_eq_nil.mp hd).1
  exact String.ext (by simpa using h1)

/-- Branch: no job id supplied. -/

lemma getter_eq_no_id (cfg : GetterConfig ρ κ ω) (st : GetterState ρ κ)
    (inst : String) (uid : Option String) :
    getOrProcessJobResult cfg st inst uid none
      = (⟨cfg.defaultOutputs, "not_found", some "No Job ID provided."⟩,
          ⟨(cleanupSupplantedJob st.store st.lastDelivered inst none).1,
            updateNodeState st.nodeState uid none,
            (cleanupSupplantedJob st.store st.lastDelivered inst none).2⟩, false) := by
  unfold getOrProcessJobResult
  simp [getJobInfo, handleTerminalState, pyOr]

/-- Branch: id supplied but the record is absent. -/

lemma getter_eq_absent (cfg : GetterConfig ρ κ ω) (st : GetterState ρ κ)
    (inst : String) (uid : Option String) (j : String) (hj : j ≠ "")
    (habs : (cleanupSupplantedJob st.store st.lastDelivered inst (some j)).1 j = none) :
    getOrProcessJobResult cfg st inst uid (some j)
      = (⟨cfg.defaultOutputs, "not_found",
            some ("Job ID " ++ j ++ " not found in store.")⟩,
          ⟨(cleanupSupplantedJob st.store st.lastDelivered inst (some j)).1,
            updateNodeState st.nodeState uid (some j),
            (cleanupSupplantedJob st.store st.lastDelivered inst (some j)).2⟩, false) := by
  unfold getOrProcessJobResult
  have hne : ("Job ID " ++ j ++ " not found in store.") ≠ "" := by
    have : ("Job ID " ++ j) ++ " not found in store." ≠ "" := by
      apply strcat_ne_empty
      exact strcat_ne_empty _ _ (by decide)
    simpa [String.append_assoc] using this
  simp only [getJobInfo_absent _ j hj habs]
  simp [handleTerminalState, pyOr, hne]

/-- Branch: stored status `failed`. -/

lemma getter_eq_failed (cfg : GetterConfig ρ κ ω) (st : GetterState ρ κ)
    (inst : String) (uid : Option String) (j : String) (r : JobRecord ρ κ)
    (hj : j ≠ "")
    (hr : (cleanupSupplantedJob st.store st.lastDelivered inst (some j)).1 j = some r)
    (hst : r.status = .failed) :
    getOrProcessJobResult cfg st inst uid (some j)
      = (⟨cfg.defaultOutputs, "failed", some (pyOr r.error "Unknown failure reason.")⟩,
          ⟨((cleanupSupplantedJob st.store st.lastDelivered inst (some j)).1).set
              (r.jobIdField.getD "N/A") none,
            updateNodeState st.nodeState uid (some j),
            (cleanupSupplantedJob st.store st.lastDelivered inst (some j)).2⟩, false) := by
  unfold getOrProcessJobResult
  simp only [getJobInfo_some _ j r hj hr, hst]
  simp [handleTerminalState, statusStr]

/-- Branch: stored status `processing_error`. -/

lemma getter_eq_processing_error (cfg : GetterConfig ρ κ ω) (st : GetterState ρ κ)
    (inst : String) (uid : Option String) (j : String) (r : JobRecord ρ κ)
    (hj : j ≠ "")
    (hr : (cleanupSupplantedJob st.store st.lastDelivered inst (some j)).1 j = some r)
    (hst : r.status = .processing_error) :
    getOrProcessJobResult cfg st inst uid (some j)
      = (⟨cfg.defaultOutputs, "processing_error",
            some (pyOr r.error "Unknown processing error.")⟩,
          ⟨((cleanupSupplantedJob st.store st.lastDelivered inst (some j)).1).set
              (r.jobIdField.getD "N/A") none,
            updateNodeState st.nodeState uid (some j),
            (cleanupSupplantedJob st.store st.lastDelivered inst (some j)).2⟩, false) := by
  unfold getOrProcessJobResult
  simp only [getJobInfo_some _ j r hj hr, hst]
  simp [handleTerminalState, statusStr]

/-- Branch: live status but the stored type is outside the getter's
expected set. -/

lemma getter_eq_mismatch (cfg : GetterConfig ρ κ ω) (st : GetterState ρ κ)
    (inst : String) (uid : Option String) (j : String) (r : JobRecord ρ κ)
    (hj : j ≠ "")
    (hr : (cleanupSupplantedJob st.store st.lastDelivered inst (some j)).1 j = some r)
    (hst : r.status = .pending ∨ r.status = .completed_pending_delivery ∨
      r.status = .delivered)
    (hty : r.jtype ∉ cfg.expectedJobTypes) :
    (getOrProcessJobResult cfg st inst uid (some j)).1.status = "type_mismatch" ∧
    (getOrProcessJobResult cfg st inst uid (some j)).1.values = cfg.defaultOutputs ∧
    (getOrProcessJobResult cfg st inst uid (some j)).2.1.store
      = ((cleanupSupplantedJob st.store st.lastDelivered inst (some j)).1).set
          (r.jobIdField.getD "N/A") none ∧
    (getOrProcessJobResult cfg st inst uid (some j)).2.2 = false := by
  unfold getOrProcessJobResult
  simp only [getJobInfo_some _ j r hj hr]
  rcases hst with h1 | h1 | h1 <;>
    simp [h1, statusStr, handleTerminalState, hty, pyOr]

/-- Branch: `pending` with matching type. -/

lemma getter_eq_pending (cfg : GetterConfig ρ κ ω) (st : GetterState ρ κ)
    (inst : String) (uid : Option String) (j : String) (r : JobRecord ρ κ)
    (hj : j ≠ "")
    (hr : (cleanupSupplantedJob st.store st.lastDelivered inst (some j)).1 j = some r)
    (hst : r.status = .pending) (hty : r.jtype ∈ cfg.expectedJobTypes) :
    getOrProcessJobResult cfg st inst uid (some j)
      = (⟨cfg.defaultOutputs, "pending", some "Job is pending."⟩,
          ⟨(cleanupSupplantedJob st.store st.lastDelivered inst (some j)).1,
            updateNodeState st.nodeState uid (some j),
            (cleanupSupplantedJob st.store st.lastDelivered inst (some j)).2⟩, false) := by
  unfold getOrProcessJobResult
  simp only [getJobInfo_some _ j r hj hr, hst]
  simp [statusStr, hty]

/-- Branch: projection required (status `completed_pending_delivery`, or
`delivered` with the cache fields missing) and `_process_raw_result`
succeeds. -/

lemma getter_eq_process_ok (cfg : GetterConfig ρ κ ω) (st : GetterState ρ κ)
    (inst : String) (uid : Option String) (j : String) (r : JobRecord ρ κ)
    (pr : ω × κ) (hj : j ≠ "")
    (hr : (cleanupSupplantedJob st.store st.lastDelivered inst (some j)).1 j = some r)
    (hneed : r.status = .completed_pending_delivery ∨
      (r.status = .delivered ∧ r.cache = none))
    (hty : r.jtype ∈ cfg.expectedJobTypes)
    (hpr : cfg.processRaw r.result = some pr) :
    getOrProcessJobResult cfg st inst uid (some j)
      = (⟨pr.1, "delivered", none⟩,
          ⟨updateJobStoreProcessed
              (cleanupSupplantedJob st.store st.lastDelivered inst (some j)).1 j
              .delivered (some pr.2) none,
            updateNodeState st.nodeState uid (some j),
            setFun (cleanupSupplantedJob st.store st.lastDelivered inst (some j)).2
              inst (some j)⟩, true) := by
  unfold getOrProcessJobResult
  simp only [getJobInfo_some _ j r hj hr]
  rcases hneed with h1 | ⟨h1, h2⟩
  · simp [h1, statusStr, hty, hpr, Option.getD]
  · simp [h1, h2, statusStr, hty, hpr, Option.getD]

/-- Branch: projection required and `_process_raw_result` signals failure. -/

lemma getter_eq_process_fail (cfg : GetterConfig ρ κ ω) (st : GetterState ρ κ)
    (inst : String) (uid : Option String) (j : String) (r : JobRecord ρ κ)
    (hj : j ≠ "")
    (hr : (cleanupSupplantedJob st.store st.lastDelivered inst (some j)).1 j = some r)
    (hneed : r.status = .completed_pending_delivery ∨
      (r.status = .delivered ∧ r.cache = none))
    (hty : r.jtype ∈ cfg.expectedJobTypes)
    (hpr : cfg.processRaw r.result = none) :
    getOrProcessJobResult cfg st inst uid (some j)
      = (⟨cfg.defaultOutputs, "processing_error",
            some ("Processing function failed for job " ++ j ++ " ("
              ++ r.jtype ++ ").")⟩,
          ⟨updateJobStoreProcessed
              (cleanupSupplantedJob st.store st.lastDelivered inst (some j)).1 j
              .processing_error none
              (some ("Processing function failed for job " ++ j ++ " ("
                ++ r.jtype ++ ").")),
            updateNodeState st.nodeState uid (some j),
            (cleanupSupplantedJob st.store st.lastDelivered inst (some j)).2⟩, true) := by
  unfold getOrProcessJobResult
  simp only [getJobInfo_some _ j r hj hr]
  rcases hneed with h1 | ⟨h1, h2⟩
  · simp [h1, statusStr, hty, hpr, Option.getD]
  · simp [h1, h2, statusStr, hty, hpr, Option.getD]

/-- Branch: `delivered` with all cache fields present — the idempotent
cached read. -/

lemma getter_eq_cached (cfg : GetterConfig ρ κ ω) (st : GetterState ρ κ)
    (inst : String) (uid : Option String) (j : String) (r : JobRecord ρ κ) (c : κ)
    (hj : j ≠ "")
    (hr : (cleanupSupplantedJob st.store st.lastDelivered inst (some j)).1 j = some r)
    (hst : r.status = .delivered) (hc : r.cache = some c)
    (hty : r.jtype ∈ cfg.expectedJobTypes) :
    getOrProcessJobResult cfg st inst uid (some j)
      = (⟨cfg.cachedOutputs c, "delivered", some "Results previously delivered."⟩,
          ⟨(cleanupSupplantedJob st.store st.lastDelivered inst (some j)).1,
            updateNodeState st.nodeState uid (some j),
            setFun (cleanupSupplantedJob st.store st.lastDelivered inst (some j)).2
              inst (some j)⟩, false) := by
  unfold getOrProcessJobResult
  simp only [getJobInfo_some _ j r hj hr, hst]
  simp [statusStr, hty, hc]

/-- Branch: the supplied job id is the empty string (falsy in Python). -/

lemma getter_eq_empty_id (cfg : GetterConfig ρ κ ω) (st : GetterState ρ κ)
    (inst : String) (uid : Option String) :
    getOrProcessJobResult cfg st inst uid (some "")
      = (⟨cfg.defaultOutputs, "not_found", some "No Job ID provided."⟩,
          ⟨(cleanupSupplantedJob st.store st.lastDelivered inst (some "")).1,
            updateNodeState st.nodeState uid (some ""),
            (cleanupSupplantedJob st.store st.lastDelivered inst (some "")).2⟩, false) := by
  unfold getOrProcessJobResult
  simp [getJobInfo, handleTerminalState, pyOr]

/-- C6. Calling the getter twice on a job whose status is `delivered`
with all cache fields present returns identical output tuples both
times; both calls take the cached-read path, invoking no projection
(hence no re-fetch and no re-decode), and return the stored processed
values unchanged. -/

theorem delivered_cache_read_idempotent {ρ κ ω : Type} (cfg : GetterConfig ρ κ ω)
    (st : GetterState ρ κ) (inst : String) (uid uid2 : Option String)
    (j : String) (r : JobRecord ρ κ) (c : κ)
    (hj : j ≠ "") (hr : st.store j = some r) (hst : r.status = .delivered)
    (hc : r.cache = some c) (hty : r.jtype ∈ cfg.expectedJobTypes) :
    (getOrProcessJobResult cfg st inst uid (some j)).1
      = ⟨cfg.cachedOutputs c, "delivered", some "Results previously delivered."⟩ ∧
    (getOrProcessJobResult cfg
        (getOrProcessJobResult cfg st inst uid (some j)).2.1 inst uid2 (some j)).1
      = (getOrProcessJobResult cfg st inst uid (some j)).1 ∧
    (getOrProcessJobResult cfg st inst uid (some j)).2.2 = false ∧
    (getOrProcessJobResult cfg
        (getOrProcessJobResult cfg st inst uid (some j)).2.1 inst uid2 (some j)).2.2
      = false := by
  have hr1 : (cleanupSupplantedJob st.store st.lastDelivered inst (some j)).1 j = some r := by
    rw [cleanup_preserves_called]; exact hr
  have e1 := getter_eq_cached cfg st inst uid j r c hj hr1 hst hc hty
  have hr2 : (cleanupSupplantedJob
      (GetterState.mk (ρ := ρ) (κ := κ)
          (cleanupSupplantedJob st.store st.lastDelivered inst (some j)).1
          (updateNodeState st.nodeState uid (some j))
          (setFun (cleanupSupplantedJob st.store st.lastDelivered inst (some j)).2
            inst (some j))).store
      (GetterState.mk
          (cleanupSupplantedJob st.store st.lastDelivered inst (some j)).1
          (updateNodeState st.nodeState uid (some j))
          (setFun (cleanupSupplantedJob st.store st.lastDelivered inst (some j)).2
            inst (some j))).lastDelivered
      inst (some j)).1 j = some r := by
    rw [cleanup_preserves_called]; exact hr1
  have e2 := getter_eq_cached cfg
      (GetterState.mk
        (cleanupSupplantedJob st.store st.lastDelivered inst (some j)).1
        (updateNodeState st.nodeState uid (some j))
        (setFun (cleanupSupplantedJob st.store st.lastDelivered inst (some j)).2
          inst (some j)))
      inst uid2 j r c hj hr2 hst hc hty
  simp only [e1]
  simp only [e2]
  exact ⟨trivial, trivial, trivial, trivial⟩

/-- Witness for C6 at a concrete delivered job with cached value 7. -/
theorem delivered_cache_read_idempotent_witness :
    (getOrProcessJobResult c6cfg c6state "n" none (some "j")).1
      = ⟨7, "delivered", some "Results previously delivered."⟩ ∧
    (getOrProcessJobResult c6cfg
        (getOrProcessJobResult c6cfg c6state "n" none (some "j")).2.1
        "n" none (some "j")).1
      = (getOrProcessJobResult c6cfg c6state "n" none (some "j")).1 ∧
    (getOrProcessJobResult c6cfg c6state "n" none (some "j")).2.2 = false ∧
    (getOrProcessJobResult c6cfg
        (getOrProcessJobResult c6cfg c6state "n" none (some "j")).2.1
        "n" none (some "j")).2.2 = false :=
  delivered_cache_read_idempotent c6cfg c6state "n" none none "j" c6record 7
    (by decide) (by simp [c6state]) rfl rfl (by simp [c6cfg, c6record])

/-- C7. A getter invocation is a total function (it never raises): it
always returns the fixed-arity output record whose trailing two elements
are a status string from the documented set and an error message; an
unknown or missing id yields `not_found`, and a completed job whose raw
result the projector cannot interpret yields `processing_error`. -/

theorem getter_never_raises {ρ κ ω : Type} (cfg : GetterConfig ρ κ ω)
    (st : GetterState ρ κ) (inst : String) (uid : Option String)
    (jobId : Option String) :
    ((getOrProcessJobResult cfg st inst uid jobId).1.status ∈
      (["not_found", "failed", "processing_error", "type_mismatch",
        "pending", "delivered"] : List String)) ∧
    (jobId = none →
        (getOrProcessJobResult cfg st inst uid jobId).1.status = "not_found") ∧
    (∀ j, jobId = some j → j ≠ "" → st.store j = none →
        (getOrProcessJobResult cfg st inst uid jobId).1.status = "not_found") ∧
    (∀ j r, jobId = some j → j ≠ "" → st.store j = some r →
        r.status = .completed_pending_delivery → r.jtype ∈ cfg.expectedJobTypes →
        cfg.processRaw r.result = none →
        (getOrProcessJobResult cfg st inst uid jobId).1.status = "processing_error") := by
  refine ⟨?_, ?_, ?_, ?_⟩
  · cases hid : jobId with
    | none => rw [getter_eq_no_id]; simp
    | some j =>
        by_cases hj : j = ""
        · subst hj; rw [getter_eq_empty_id]; simp
        · cases hcl : (cleanupSupplantedJob st.store st.lastDelivered inst (some j)).1 j with
          | none => rw [getter_eq_absent cfg st inst uid j hj hcl]; simp
          | some r =>
              by_cases hty : r.jtype ∈ cfg.expectedJobTypes
              · cases hrs : r.status with
                | pending =>
                    rw [getter_eq_pending cfg st inst uid j r hj hcl hrs hty]; simp
                | completed_pending_delivery =>
                    cases hpr : cfg.processRaw r.result with
                    | none =>
                        rw [getter_eq_process_fail cfg st inst uid j r hj hcl
                          (Or.inl hrs) hty hpr]
                        simp
                    | some pr =>
                        rw [getter_eq_process_ok cfg st inst uid j r pr hj hcl
                          (Or.inl hrs) hty hpr]
                        simp
                | delivered =>
                    cases hcc : r.cache with
                    | none =>
                        cases hpr : cfg.processRaw r.result with
                        | none =>
                            rw [getter_eq_process_fail cfg st inst uid j r hj hcl
                              (Or.inr ⟨hrs, hcc⟩) hty hpr]
                            simp
                        | some pr =>
                            rw [getter_eq_process_ok cfg st inst uid j r pr hj hcl
                              (Or.inr ⟨hrs, hcc⟩) hty hpr]
                            simp
                    | some c =>
                        rw [getter_eq_cached cfg st inst uid j r c hj hcl hrs hcc hty]
                        simp
                | failed =>
                    rw [getter_eq_failed cfg st inst uid j r hj hcl hrs]; simp
                | processing_error =>
                    rw [getter_eq_processing_error cfg st inst uid j r hj hcl hrs]; simp
              · cases hrs : r.status with
                | pending =>
                    exact (getter_eq_mismatch cfg st inst uid j r hj hcl
                      (Or.inl hrs) hty).1 ▸ (by simp)
                | completed_pending_delivery =>
                    exact (getter_eq_mismatch cfg st inst uid j r hj hcl
                      (Or.inr (Or.inl hrs)) hty).1 ▸ (by simp)
                | delivered =>
                    exact (getter_eq_mismatch cfg st inst uid j r hj hcl
                      (Or.inr (Or.inr hrs)) hty).1 ▸ (by simp)
                | failed =>
                    rw [getter_eq_failed cfg st inst uid j r hj hcl hrs]; simp
                | processing_error =>
                    rw [getter_eq_processing_error cfg st inst uid j r hj hcl hrs]; simp
  · intro h
    subst h
    rw [getter_eq_no_id]
  · intro j hid hj habs
    subst hid
    have hcl : (cleanupSupplantedJob st.store st.lastDelivered inst (some j)).1 j = none := by
      rcases cleanup_pointwise st.store st.lastDelivered inst (some j) j with h | ⟨h, _⟩
      · rw [h, habs]
      · exact h
    rw [getter_eq_absent cfg st inst uid j hj hcl]
  · intro j r hid hj hr hrs hty hpr
    subst hid
    have hcl : (cleanupSupplantedJob st.store st.lastDelivered inst (some j)).1 j = some r := by
      rw [cleanup_preserves_called]; exact hr
    rw [getter_eq_process_fail cfg st inst uid j r hj hcl (Or.inl hrs) hty hpr]

/-- Witness for C7: an unknown id on an empty store reports not_found. -/

theorem getter_never_raises_witness :
    (getOrProcessJobResult (ρ := Nat) (κ := Nat) (ω := Nat)
        ⟨["t2i"], ["k"], fun _ => none, fun c => c, 0⟩
        ⟨fun _ => none, fun _ => none, fun _ => none⟩
        "n" none (some "ghost")).1.status = "not_found" :=
  (getter_never_raises ⟨["t2i"], ["k"], fun _ => none, fun c => c, 0⟩
      ⟨fun _ => none, fun _ => none, fun _ => none⟩ "n" none (some "ghost")).2.2.1
    "ghost" rfl (by decide) rfl

/-- Counter-evidence for C8: the eviction of terminal non-delivered
records is a no-op in the code. -/
theorem terminal_state_eviction_noop :
    (getOrProcessJobResult bugCfg bugState "n" none (some "j1")).1.status = "failed" ∧
    (getOrProcessJobResult bugCfg bugState "n" none (some "j1")).2.1.store "j1"
      = some bugRecord ∧
    (getOrProcessJobResult bugCfg
        (getOrProcessJobResult bugCfg bugState "n" none (some "j1")).2.1
        "n" none (some "j1")).1.status = "failed" := by
  refine ⟨?_, ?_, ?_⟩ <;> decide

/-- C5. The `IS_CHANGED` probe returns the current clock value — and
hence a value differing from the previous call's — whenever no valid job
id is known for the node instance or the tracked job is unsettled, and
returns the stable job id (the same value on every call) once the job is
settled and, for `delivered`, fully projected.  The probe reads the job
store and returns only a value; it performs no store mutation by
construction. -/
theorem is_changed_probe_spec {ρ κ ω : Type} (cfg : GetterConfig ρ κ ω)
    (ns : String → Option (Option String)) (store : Store ρ κ) :
    (∀ t, isChanged cfg none ns store t = .vtime t) ∧
    (∀ u t, (ns u).join = none → isChanged cfg (some u) ns store t = .vtime t) ∧
    (∀ u j t, (ns u).join = some j → j ≠ "" → store j = none →
        isChanged cfg (some u) ns store t = .vtime t) ∧
    (∀ u j r t, (ns u).join = some j → j ≠ "" → store j = some r →
        (r.status = .pending ∨ r.status = .completed_pending_delivery) →
        isChanged cfg (some u) ns store t = .vtime t) ∧
    (∀ u j r t, (ns u).join = some j → j ≠ "" → store j = some r →
        (r.status = .failed ∨ r.status = .processing_error ∨
          (r.status = .delivered ∧ r.cache.isSome)) →
        isChanged cfg (some u) ns store t = .stable j) ∧
    (∀ t1 t2 : Nat, t1 ≠ t2 → (ChangedVal.vtime t1 : ChangedVal) ≠ .vtime t2) := by
  refine ⟨fun t => rfl, ?_, ?_, ?_, ?_, ?_⟩
  · intro u t h
    have h' : ((ns u).bind fun a => a) = none := h
    unfold isChanged
    simp [h']
  · intro u j t h hj hs
    have h' : ((ns u).bind fun a => a) = some j := h
    unfold isChanged
    simp [h', hj, hs]
  · intro u j r t h hj hs hst
    have h' : ((ns u).bind fun a => a) = some j := h
    unfold isChanged
    rcases hst with h1 | h1 <;> simp [h', hj, hs, h1, statusStr]
  · intro u j r t h hj hs hst
    have h' : ((ns u).bind fun a => a) = some j := h
    unfold isChanged
    rcases hst with h1 | h1 | ⟨h1, h2⟩
    · simp [h', hj, hs, h1, statusStr]
    · simp [h', hj, hs, h1, statusStr]
    · simp [h', hj, hs, h1, statusStr, h2]
  · intro t1 t2 h hc
    cases hc
    exact h rfl

/-- Witness for C5: a concrete settled-and-projected job yields the
stable id. -/

theorem is_changed_probe_spec_witness :
    isChanged (ρ := Nat) (κ := Nat) (ω := Nat)
        ⟨["t2i"], ["k"], fun _ => none, fun c => c, 0⟩
        (some "u")
        (fun x => if x = "u" then some (some "j") else none)
        (fun x => if x = "j" then
            some { status := .failed, jtype := "t2i", error := some "boom" }
          else none)
        42
      = .stable "j" := by
  have h := (is_changed_probe_spec (ρ := Nat) (κ := Nat) (ω := Nat)
      ⟨["t2i"], ["k"], fun _ => none, fun c => c, 0⟩
      (fun x => if x = "u" then some (some "j") else none)
      (fun x => if x = "j" then
          some { status := .failed, jtype := "t2i", error := some "boom" }
        else none)).2.2.2.2.1
  exact h "u" "j" _ 42 rfl (by decide) rfl (Or.inl rfl)

/-- C9. The periodic sweep removes a job record exactly when it is in
a terminal status (`delivered`, `failed`, or the error variant), has no
nodes using it, and was last updated more than one hour (3600 s) ago; it
removes no record failing any of the three conditions, and the sweep
period is five minutes (300 s). -/

theorem cleanup_sweep_exact (jobs : String → Option ServiceJobRecord) (now : Nat)
    (id : String) :
    (cleanupExpiredJobsPass jobs now id = none ↔
      jobs id = none ∨ ∃ j, jobs id = some j ∧ shouldCleanup j now = true) ∧
    (∀ j, shouldCleanup j now = true ↔
      ((j.status = "delivered" ∨ j.status = "failed" ∨ j.status = "error") ∧
        j.nodesUsing = [] ∧ jobExpirySeconds < now - j.lastUpdated)) ∧
    (∀ j, jobs id = some j → shouldCleanup j now = false →
        cleanupExpiredJobsPass jobs now id = some j) ∧
    jobExpirySeconds = 3600 ∧ cleanupSweepIntervalSeconds = 300 := by
  refine ⟨?_, ?_, ?_, rfl, rfl⟩
  · unfold cleanupExpiredJobsPass
    cases hji : jobs id with
    | none => simp
    | some j =>
        by_cases hc : shouldCleanup j now
        · simp [hc]
        · simp [hc]
  · intro j
    unfold shouldCleanup
    simp [List.isEmpty_iff, and_assoc]
  · intro j hji hc
    unfold cleanupExpiredJobsPass
    simp [hji, hc]

/-- Witness for C9: an old, unreferenced, delivered record is removed. -/

theorem cleanup_sweep_exact_witness :
    cleanupExpiredJobsPass
        (fun id => if id = "j1" then some ⟨"delivered", "t2i", 0, 0, []⟩ else none)
        5000 "j1" = none :=
  (cleanup_sweep_exact
      (fun id => if id = "j1" then some ⟨"delivered", "t2i", 0, 0, []⟩ else none)
      5000 "j1").1.mpr
    (Or.inr ⟨⟨"delivered", "t2i", 0, 0, []⟩, by decide, by decide⟩)

/-- Pointwise effect of one getter invocation on the job store: each key
is left unchanged, evicted, or — only for the called id, only from
`completed_pending_delivery` or cache-less `delivered` — rewritten by a
successful or failed projection. -/
lemma getter_store_pointwise (cfg : GetterConfig ρ κ ω) (st : GetterState ρ κ)
    (inst : String) (uid : Option String) (jobId : Option String) (k : String) :
    (getOrProcessJobResult cfg st inst uid jobId).2.1.store k = st.store k ∨
    (getOrProcessJobResult cfg st inst uid jobId).2.1.store k = none ∨
    (jobId = some k ∧ ∃ r, st.store k = some r ∧
      (r.status = .completed_pending_delivery ∨
        (r.status = .delivered ∧ r.cache = none)) ∧
      ((∃ c, (getOrProcessJobResult cfg st inst uid jobId).2.1.store k
          = some { r with status := .delivered, cache := some c }) ∨
       (∃ m, (getOrProcessJobResult cfg st inst uid jobId).2.1.store k
          = some { r with status := .processing_error, error := some m }))) := by
  have hclean : ∀ (jid : Option String),
      (cleanupSupplantedJob st.store st.lastDelivered inst jid).1 k = st.store k ∨
      (cleanupSupplantedJob st.store st.lastDelivered inst jid).1 k = none := by
    intro jid
    rcases cleanup_pointwise st.store st.lastDelivered inst jid k with h | ⟨h, _⟩
    · exact Or.inl h
    · exact Or.inr h
  have hpop : ∀ (jid : Option String) (p : String),
      ((cleanupSupplantedJob st.store st.lastDelivered inst jid).1).set p none k
          = st.store k ∨
      ((cleanupSupplantedJob st.store st.lastDelivered inst jid).1).set p none k
          = none := by
    intro jid p
    by_cases hk : k = p
    · exact Or.inr (by simp [Store.set, setFun, hk])
    · have he : ((cleanupSupplantedJob st.store st.lastDelivered inst jid).1).set p none k
          = (cleanupSupplantedJob st.store st.lastDelivered inst jid).1 k := by
        simp [Store.set, setFun, hk]
      rw [he]
      exact hclean jid
  cases hid : jobId with
  | none =>
      rw [getter_eq_no_id]
      rcases hclean none with h | h
      · exact Or.inl h
      · exact Or.inr (Or.inl h)
  | some j =>
      by_cases hj : j = ""
      · subst hj
        rw [getter_eq_empty_id]
        rcases hclean (some "") with h | h
        · exact Or.inl h
        · exact Or.inr (Or.inl h)
      · cases hcl : (cleanupSupplantedJob st.store st.lastDelivered inst (some j)).1 j with
        | none =>
            rw [getter_eq_absent cfg st inst uid j hj hcl]
            rcases hclean (some j) with h | h
            · exact Or.inl h
            · exact Or.inr (Or.inl h)
        | some r =>
            have hstk : st.store j = some r := by
              rw [← cleanup_preserves_called st.store st.lastDelivered inst j]
              exact hcl
            by_cases hty : r.jtype ∈ cfg.expectedJobTypes
            · cases hrs : r.status with
              | pending =>
                  rw [getter_eq_pending cfg st inst uid j r hj hcl hrs hty]
                  rcases hclean (some j) with h | h
                  · exact Or.inl h
                  · exact Or.inr (Or.inl h)
              | failed =>
                  rw [getter_eq_failed cfg st inst uid j r hj hcl hrs]
                  rcases hpop (some j) (r.jobIdField.getD "N/A") with h | h
                  · exact Or.inl h
                  · exact Or.inr (Or.inl h)
              | processing_error =>
                  rw [getter_eq_processing_error cfg st inst uid j r hj hcl hrs]
                  rcases hpop (some j) (r.jobIdField.getD "N/A") with h | h
                  · exact Or.inl h
                  · exact Or.inr (Or.inl h)
              | completed_pending_delivery =>
                  cases hpr : cfg.processRaw r.result with
                  | some pr =>
                      rw [getter_eq_process_ok cfg st inst uid j r pr hj hcl
                        (Or.inl hrs) hty hpr]
                      by_cases hk : k = j
                      · subst hk
                        refine Or.inr (Or.inr ⟨rfl, r, hstk, Or.inl hrs, Or.inl ⟨pr.2, ?_⟩⟩)
                        show updateJobStoreProcessed
                          (cleanupSupplantedJob st.store st.lastDelivered inst (some k)).1 k
                          .delivered (some pr.2) none k = _
                        rw [updateJobStoreProcessed_at _ _ _ _ _ r hcl]
                        rfl
                      · have he : updateJobStoreProcessed
                            (cleanupSupplantedJob st.store st.lastDelivered inst (some j)).1 j
                            .delivered (some pr.2) none k
                            = (cleanupSupplantedJob st.store st.lastDelivered inst (some j)).1 k :=
                          updateJobStoreProcessed_ne _ _ _ _ _ k hk
                        rcases hclean (some j) with h | h
                        · exact Or.inl (he.trans h)
                        · exact Or.inr (Or.inl (he.trans h))
                  | none =>
                      rw [getter_eq_process_fail cfg st inst uid j r hj hcl
                        (Or.inl hrs) hty hpr]
                      by_cases hk : k = j
                      · subst hk
                        refine Or.inr (Or.inr ⟨rfl, r, hstk, Or.inl hrs,
                          Or.inr ⟨"Processing function failed for job " ++ k ++ " ("
                            ++ r.jtype ++ ").", ?_⟩⟩)
                        show updateJobStoreProcessed
                          (cleanupSupplantedJob st.store st.lastDelivered inst (some k)).1 k
                          .processing_error none
                          (some ("Processing function failed for job " ++ k ++ " ("
                            ++ r.jtype ++ ").")) k = _
                        rw [updateJobStoreProcessed_at _ _ _ _ _ r hcl]
                        rfl
                      · have he : updateJobStoreProcessed
                            (cleanupSupplantedJob st.store st.lastDelivered inst (some j)).1 j
                            .processing_error none
                            (some ("Processing function failed for job " ++ j ++ " ("
                              ++ r.jtype ++ ").")) k
                            = (cleanupSupplantedJob st.store st.lastDelivered inst (some j)).1 k :=
                          updateJobStoreProcessed_ne _ _ _ _ _ k hk
                        rcases hclean (some j) with h | h
                        · exact Or.inl (he.trans h)
                        · exact Or.inr (Or.inl (he.trans h))
              | delivered =>
                  cases hcc : r.cache with
                  | some c =>
                      rw [getter_eq_cached cfg st inst uid j r c hj hcl hrs hcc hty]
                      rcases hclean (some j) with h | h
                      · exact Or.inl h
                      · exact Or.inr (Or.inl h)
                  | none =>
                      cases hpr : cfg.processRaw r.result with
                      | some pr =>
                          rw [getter_eq_process_ok cfg st inst uid j r pr hj hcl
                            (Or.inr ⟨hrs, hcc⟩) hty hpr]
                          by_cases hk : k = j
                          · subst hk
                            refine Or.inr (Or.inr ⟨rfl, r, hstk, Or.inr ⟨hrs, hcc⟩,
                              Or.inl ⟨pr.2, ?_⟩⟩)
                            show updateJobStoreProcessed
                              (cleanupSupplantedJob st.store st.lastDelivered inst (some k)).1 k
                              .delivered (some pr.2) none k = _
                            rw [updateJobStoreProcessed_at _ _ _ _ _ r hcl]
                            rfl
                          · have he : updateJobStoreProcessed
                                (cleanupSupplantedJob st.store st.lastDelivered inst (some j)).1 j
                                .delivered (some pr.2) none k
                                = (cleanupSupplantedJob st.store st.lastDelivered inst
                                    (some j)).1 k :=
                              updateJobStoreProcessed_ne _ _ _ _ _ k hk
                            rcases hclean (some j) with h | h
                            · exact Or.inl (he.trans h)
                            · exact Or.inr (Or.inl (he.trans h))
                      | none =>
                          rw [getter_eq_process_fail cfg st inst uid j r hj hcl
                            (Or.inr ⟨hrs, hcc⟩) hty hpr]
                          by_cases hk : k = j
                          · subst hk
                            refine Or.inr (Or.inr ⟨rfl, r, hstk, Or.inr ⟨hrs, hcc⟩,
                              Or.inr ⟨"Processing function failed for job " ++ k ++ " ("
                                ++ r.jtype ++ ").", ?_⟩⟩)
                            show updateJobStoreProcessed
                              (cleanupSupplantedJob st.store st.lastDelivered inst (some k)).1 k
                              .processing_error none
                              (some ("Processing function failed for job " ++ k ++ " ("
                                ++ r.jtype ++ ").")) k = _
                            rw [updateJobStoreProcessed_at _ _ _ _ _ r hcl]
                            rfl
                          · have he : updateJobStoreProcessed
                                (cleanupSupplantedJob st.store st.lastDelivered inst (some j)).1 j
                                .processing_error none
                                (some ("Processing function failed for job " ++ j ++ " ("
                                  ++ r.jtype ++ ").")) k
                                = (cleanupSupplantedJob st.store st.lastDelivered inst
                                    (some j)).1 k :=
                              updateJobStoreProcessed_ne _ _ _ _ _ k hk
                            rcases hclean (some j) with h | h
                            · exact Or.inl (he.trans h)
                            · exact Or.inr (Or.inl (he.trans h))
            · cases hrs : r.status with
              | failed =>
                  rw [getter_eq_failed cfg st inst uid j r hj hcl hrs]
                  rcases hpop (some j) (r.jobIdField.getD "N/A") with h | h
                  · exact Or.inl h
                  · exact Or.inr (Or.inl h)
              | processing_error =>
                  rw [getter_eq_processing_error cfg st inst uid j r hj hcl hrs]
                  rcases hpop (some j) (r.jobIdField.getD "N/A") with h | h
                  · exact Or.inl h
                  · exact Or.inr (Or.inl h)
              | pending =>
                  rw [(getter_eq_mismatch cfg st inst uid j r hj hcl (Or.inl hrs) hty).2.2.1]
                  rcases hpop (some j) (r.jobIdField.getD "N/A") with h | h
                  · exact Or.inl h
                  · exact Or.inr (Or.inl h)
              | completed_pending_delivery =>
                  rw [(getter_eq_mismatch cfg st inst uid j r hj hcl
                    (Or.inr (Or.inl hrs)) hty).2.2.1]
                  rcases hpop (some j) (r.jobIdField.getD "N/A") with h | h
                  · exact Or.inl h
                  · exact Or.inr (Or.inl h)
              | delivered =>
                  rw [(getter_eq_mismatch cfg st inst uid j r hj hcl
                    (Or.inr (Or.inr hrs)) hty).2.2.1]
                  rcases hpop (some j) (r.jobIdField.getD "N/A") with h | h
                  · exact Or.inl h
                  · exact Or.inr (Or.inl h)

/-- Inversion: if a getter invocation ran `_process_raw_result`, the
called id held a record in `completed_pending_delivery` (or cache-less
`delivered`) of an expected type, and afterwards that id holds the
delivered record with its full cache, or the `processing_error` record. -/

lemma getter_projected (cfg : GetterConfig ρ κ ω) (st : GetterState ρ κ)
    (inst : String) (uid : Option String) (jobId : Option String)
    (h : (getOrProcessJobResult cfg st inst uid jobId).2.2 = true) :
    ∃ j r, jobId = some j ∧ j ≠ "" ∧ st.store j = some r ∧
      (r.status = .completed_pending_delivery ∨
        (r.status = .delivered ∧ r.cache = none)) ∧
      r.jtype ∈ cfg.expectedJobTypes ∧
      ((∃ c, (getOrProcessJobResult cfg st inst uid jobId).2.1.store j
          = some { r with status := .delivered, cache := some c }) ∨
       (∃ m, (getOrProcessJobResult cfg st inst uid jobId).2.1.store j
          = some { r with status := .processing_error, error := some m })) := by
  cases hid : jobId with
  | none => rw [hid, getter_eq_no_id] at h; simp at h
  | some j =>
      rw [hid] at h
      by_cases hj : j = ""
      · subst hj; rw [getter_eq_empty_id] at h; simp at h
      · cases hcl : (cleanupSupplantedJob st.store st.lastDelivered inst (some j)).1 j with
        | none => rw [getter_eq_absent cfg st inst uid j hj hcl] at h; simp at h
        | some r =>
            have hstk : st.store j = some r := by
              rw [← cleanup_preserves_called st.store st.lastDelivered inst j]
              exact hcl
            by_cases hty : r.jtype ∈ cfg.expectedJobTypes
            · cases hrs : r.status with
              | pending =>
                  rw [getter_eq_pending cfg st inst uid j r hj hcl hrs hty] at h
                  simp at h
              | failed =>
                  rw [getter_eq_failed cfg st inst uid j r hj hcl hrs] at h
                  simp at h
              | processing_error =>
                  rw [getter_eq_processing_error cfg st inst uid j r hj hcl hrs] at h
                  simp at h
              | completed_pending_delivery =>
                  cases hpr : cfg.processRaw r.result with
                  | some pr =>
                      refine ⟨j, r, rfl, hj, hstk, Or.inl hrs, hty, Or.inl ⟨pr.2, ?_⟩⟩
                      rw [getter_eq_process_ok cfg st inst uid j r pr hj hcl
                        (Or.inl hrs) hty hpr]
                      show updateJobStoreProcessed _ j .delivered (some pr.2) none j = _
                      rw [updateJobStoreProcessed_at _ _ _ _ _ r hcl]
                      rfl
                  | none =>
                      refine ⟨j, r, rfl, hj, hstk, Or.inl hrs, hty,
                        Or.inr ⟨"Processing function failed for job " ++ j ++ " ("
                          ++ r.jtype ++ ").", ?_⟩⟩
                      rw [getter_eq_process_fail cfg st inst uid j r hj hcl
                        (Or.inl hrs) hty hpr]
                      show updateJobStoreProcessed _ j .processing_error none
                        (some ("Processing function failed for job " ++ j ++ " ("
                          ++ r.jtype ++ ").")) j = _
                      rw [updateJobStoreProcessed_at _ _ _ _ _ r hcl]
                      rfl
              | delivered =>
                  cases hcc : r.cache with
                  | some c =>
                      rw [getter_eq_cached cfg st inst uid j r c hj hcl hrs hcc hty] at h
                      simp at h
                  | none =>
                      cases hpr : cfg.processRaw r.result with
                      | some pr =>
                          refine ⟨j, r, rfl, hj, hstk, Or.inr ⟨hrs, hcc⟩, hty,
                            Or.inl ⟨pr.2, ?_⟩⟩
                          rw [getter_eq_process_ok cfg st inst uid j r pr hj hcl
                            (Or.inr ⟨hrs, hcc⟩) hty hpr]
                          show updateJobStoreProcessed _ j .delivered (some pr.2) none j = _
                          rw [updateJobStoreProcessed_at _ _ _ _ _ r hcl]
                          rfl
                      | none =>
                          refine ⟨j, r, rfl, hj, hstk, Or.inr ⟨hrs, hcc⟩, hty,
                            Or.inr ⟨"Processing function failed for job " ++ j ++ " ("
                              ++ r.jtype ++ ").", ?_⟩⟩
                          rw [getter_eq_process_fail cfg st inst uid j r hj hcl
                            (Or.inr ⟨hrs, hcc⟩) hty hpr]
                          show updateJobStoreProcessed _ j .processing_error none
                            (some ("Processing function failed for job " ++ j ++ " ("
                              ++ r.jtype ++ ").")) j = _
                          rw [updateJobStoreProcessed_at _ _ _ _ _ r hcl]
                          rfl
            · cases hrs : r.status with
              | failed =>
                  rw [getter_eq_failed cfg st inst uid j r hj hcl hrs] at h
                  simp at h
              | processing_error =>
                  rw [getter_eq_processing_error cfg st inst uid j r hj hcl hrs] at h
                  simp at h
              | pending =>
                  rw [(getter_eq_mismatch cfg st inst uid j r hj hcl (Or.inl hrs) hty).2.2.2] at h
                  simp at h
              | completed_pending_delivery =>
                  rw [(getter_eq_mismatch cfg st inst uid j r hj hcl
                    (Or.inr (Or.inl hrs)) hty).2.2.2] at h
                  simp at h
              | delivered =>
                  rw [(getter_eq_mismatch cfg st inst uid j r hj hcl
                    (Or.inr (Or.inr hrs)) hty).2.2.2] at h
                  simp at h

lemma goodSys_init : GoodSys (SysState.init : SysState ρ κ) := by
  intro id
  refine ⟨?_, ?_, ?_, ?_⟩ <;> simp [SysState.init]

lemma goodSys_step {s : SysState ρ κ} (hs : GoodSys s) (e : Event ρ κ ω) :
    GoodSys (s.step e).1 := by
  cases e with
  | triggerAsync id jtype outcome =>
      by_cases hc : s.everCreated id
      · have hstep : (s.step (Event.triggerAsync (ω := ω) id jtype outcome)).1 = s := by
          simp [SysState.step, hc]
        rw [hstep]; exact hs
      · have hstep : (s.step (Event.triggerAsync (ω := ω) id jtype outcome)).1
            = { gs := { s.gs with
                  store := s.gs.store.set id (some { status := .pending, jtype := jtype }) },
                inflight := setFun s.inflight id (some outcome),
                everCreated := setFun s.everCreated id true } := by
          simp [SysState.step, hc]
        rw [hstep]
        intro k
        obtain ⟨h1, h2, h3, h4⟩ := hs k
        by_cases hk : k = id
        · subst hk
          refine ⟨?_, ?_, ?_, ?_⟩
          · intro _ r hr
            simp [Store.set, setFun] at hr
            simp [← hr]
          · intro _; simp [setFun]
          · intro _; simp [setFun]
          · intro r hr hst
            simp [Store.set, setFun] at hr
            rw [← hr] at hst
            cases hst
        · refine ⟨?_, ?_, ?_, ?_⟩
          · intro hin r hr
            simp only [Store.set, setFun, if_neg hk] at hr hin
            exact h1 hin r hr
          · intro hsome
            simp only [Store.set, setFun, if_neg hk] at hsome ⊢
            exact h2 hsome
          · intro hin
            simp only [setFun, if_neg hk] at hin ⊢
            exact h3 hin
          · intro r hr hst
            simp only [Store.set, setFun, if_neg hk] at hr
            exact h4 r hr hst
  | finish id =>
      cases hin : s.inflight id with
      | none =>
          have hstep : (s.step (Event.finish (ω := ω) id)).1 = s := by
            simp [SysState.step, hin]
          rw [hstep]; exact hs
      | some outcome =>
          cases hsr : s.gs.store id with
          | none =>
              have hstep : (s.step (Event.finish (ω := ω) id)).1
                  = { gs := { s.gs with store := s.gs.store },
                      inflight := setFun s.inflight id none,
                      everCreated := s.everCreated } := by
                simp [SysState.step, hin, hsr]
              rw [hstep]
              intro k
              obtain ⟨h1, h2, h3, h4⟩ := hs k
              by_cases hk : k = id
              · subst hk
                refine ⟨?_, h2, ?_, h4⟩
                · intro hin2
                  simp [setFun] at hin2
                · intro hin2
                  simp [setFun] at hin2
              · refine ⟨?_, h2, ?_, h4⟩
                · intro hin2 r hr
                  simp only [setFun, if_neg hk] at hin2
                  exact h1 hin2 r hr
                · intro hin2
                  simp only [setFun, if_neg hk] at hin2
                  exact h3 hin2
          | some r =>
              have hnew : ∀ (r' : JobRecord ρ κ),
                  r'.status ≠ .delivered →
                  GoodSys { gs := { s.gs with store := s.gs.store.set id (some r') },
                            inflight := setFun s.inflight id none,
                            everCreated := s.everCreated } := by
                intro r' hst'
                intro k
                obtain ⟨h1, h2, h3, h4⟩ := hs k
                by_cases hk : k = id
                · subst hk
                  refine ⟨?_, ?_, ?_, ?_⟩
                  · intro hin2
                    simp [setFun] at hin2
                  · intro _
                    exact h3 (by rw [hin]; rfl)
                  · intro hin2
                    simp [setFun] at hin2
                  · intro r2 hr2 hst2
                    simp [Store.set, setFun] at hr2
                    rw [← hr2] at hst2
                    exact absurd hst2 hst'
                · refine ⟨?_, ?_, ?_, ?_⟩
                  · intro hin2 r2 hr2
                    simp only [setFun, if_neg hk] at hin2
                    simp only [Store.set, setFun, if_neg hk] at hr2
                    exact h1 hin2 r2 hr2
                  · intro hsome
                    simp only [Store.set, setFun, if_neg hk] at hsome
                    exact h2 hsome
                  · intro hin2
                    simp only [setFun, if_neg hk] at hin2
                    exact h3 hin2
                  · intro r2 hr2 hst2
                    simp only [Store.set, setFun, if_neg hk] at hr2
                    exact h4 r2 hr2 hst2
              cases outcome with
              | ok v =>
                  have hstep : (s.step (Event.finish (ω := ω) id)).1
                      = { gs := { s.gs with store := s.gs.store.set id (some { r with status := .completed_pending_delivery, result := some v }) },
                          inflight := setFun s.inflight id none,
                          everCreated := s.everCreated } := by
                    simp [SysState.step, hin, hsr]
                  rw [hstep]
                  exact hnew _ (by simp)
              | error msg =>
                  have hstep : (s.step (Event.finish (ω := ω) id)).1
                      = { gs := { s.gs with store := s.gs.store.set id (some { r with status := .failed, error := some msg }) },
                          inflight := setFun s.inflight id none,
                          everCreated := s.everCreated } := by
                    simp [SysState.step, hin, hsr]
                  rw [hstep]
                  exact hnew _ (by simp)
  | storeSync id jtype result =>
      by_cases hc : s.everCreated id
      · have hstep : (s.step (Event.storeSync (ω := ω) id jtype result)).1 = s := by
          simp [SysState.step, hc]
        rw [hstep]; exact hs
      · have hstep : (s.step (Event.storeSync (ω := ω) id jtype result)).1
            = { gs := { s.gs with store := s.gs.store.set id (some { status := .completed_pending_delivery, jtype := jtype, result := some result }) },
                inflight := s.inflight,
                everCreated := setFun s.everCreated id true } := by
          simp [SysState.step, hc]
        rw [hstep]
        intro k
        obtain ⟨h1, h2, h3, h4⟩ := hs k
        by_cases hk : k = id
        · subst hk
          refine ⟨?_, ?_, ?_, ?_⟩
          · intro hin2
            exact absurd (h3 hin2) hc
          · intro _; simp [setFun]
          · intro _; simp [setFun]
          · intro r hr hst
            simp [Store.set, setFun] at hr
            rw [← hr] at hst
            cases hst
        · refine ⟨?_, ?_, ?_, ?_⟩
          · intro hin2 r hr
            simp only [Store.set, setFun, if_neg hk] at hr
            exact h1 hin2 r hr
          · intro hsome
            simp only [Store.set, setFun, if_neg hk] at hsome ⊢
            exact h2 hsome
          · intro hin2
            show setFun s.everCreated id true k = true
            simp only [setFun, if_neg hk]
            exact h3 hin2
          · intro r hr hst
            simp only [Store.set, setFun, if_neg hk] at hr
            exact h4 r hr hst
  | getterCall cfg inst uid jobId =>
      have hstep : (s.step (Event.getterCall cfg inst uid jobId)).1
          = { s with gs := (getOrProcessJobResult cfg s.gs inst uid jobId).2.1 } := by
        simp [SysState.step]
      rw [hstep]
      intro k
      obtain ⟨h1, h2, h3, h4⟩ := hs k
      rcases getter_store_pointwise cfg s.gs inst uid jobId k with
        hpt | hpt | ⟨hjid, r, hr, hneed, hres⟩
      · refine ⟨?_, ?_, h3, ?_⟩
        · intro hin2 r hr2
          rw [hpt] at hr2
          exact h1 hin2 r hr2
        · intro hsome
          rw [hpt] at hsome
          exact h2 hsome
        · intro r hr2 hst
          rw [hpt] at hr2
          exact h4 r hr2 hst
      · refine ⟨?_, ?_, h3, ?_⟩
        · intro _ r hr2
          rw [hpt] at hr2
          cases hr2
        · intro hsome
          rw [hpt] at hsome
          simp at hsome
        · intro r hr2 _
          rw [hpt] at hr2
          cases hr2
      · refine ⟨?_, ?_, h3, ?_⟩
        · intro hin2 _ _
          have hp := h1 hin2 r hr
          rcases hneed with hcpd | ⟨hdel, _⟩
          · rw [hp] at hcpd; cases hcpd
          · rw [hp] at hdel; cases hdel
        · intro _
          exact h2 (by rw [hr]; rfl)
        · intro r2 hr2 hst
          rcases hres with ⟨c, hc⟩ | ⟨m, hm⟩
          · rw [hc] at hr2
            cases hr2
            simp
          · rw [hm] at hr2
            cases hr2
            cases hst

lemma goodSys_foldl {s : SysState ρ κ} (hs : GoodSys s) :
    ∀ evs : List (Event ρ κ ω), GoodSys (evs.foldl (fun s e => (s.step e).1) s) := by
  intro evs
  induction evs generalizing s with
  | nil => exact hs
  | cons e rest ih => exact ih (goodSys_step hs e)

lemma goodSys_run (evs : List (Event ρ κ ω)) : GoodSys (runEvents evs) :=
  goodSys_foldl goodSys_init evs

/-- A projecting step starts from `completed_pending_delivery` (or
cache-less `delivered`) and leaves the id delivered-with-cache or in
`processing_error`. -/

lemma step_project_effect {s : SysState ρ κ} (hgood : GoodSys s) {id : String}
    (e : Event ρ κ ω) (hp : (s.step e).2 = some id) :
    ∃ r, s.gs.store id = some r ∧
      (r.status = .completed_pending_delivery ∨
        (r.status = .delivered ∧ r.cache = none)) ∧
      ∀ r2, (s.step e).1.gs.store id = some r2 →
        ((r2.status = .delivered ∧ r2.cache.isSome) ∨ r2.status = .processing_error) := by
  cases e with
  | triggerAsync id' jtype outcome =>
      by_cases hc : s.everCreated id' <;> simp [SysState.step, hc] at hp
  | finish id' =>
      cases hin : s.inflight id' <;> simp [SysState.step, hin] at hp
  | storeSync id' jtype result =>
      by_cases hc : s.everCreated id' <;> simp [SysState.step, hc] at hp
  | getterCall cfg inst uid jobId =>
      have hp' : (if (getOrProcessJobResult cfg s.gs inst uid jobId).2.2 = true
          then jobId else none) = some id := by
        simpa [SysState.step] using hp
      by_cases hb : (getOrProcessJobResult cfg s.gs inst uid jobId).2.2 = true
      · rw [if_pos hb] at hp'
        obtain ⟨j, r, hjid, hj, hstk, hneed, hty, hres⟩ :=
          getter_projected cfg s.gs inst uid jobId hb
        have hjd : j = id := by
          rw [hjid] at hp'
          exact Option.some.inj hp'
        subst hjd
        refine ⟨r, hstk, hneed, ?_⟩
        intro r2 hr2
        have hr2' : (getOrProcessJobResult cfg s.gs inst uid jobId).2.1.store j
            = some r2 := by
          simpa [SysState.step] using hr2
        rcases hres with ⟨c, hc⟩ | ⟨m, hm⟩
        · rw [hc] at hr2'
          cases hr2'
          exact Or.inl ⟨rfl, rfl⟩
        · rw [hm] at hr2'
          cases hr2'
          exact Or.inr rfl
      · rw [if_neg hb] at hp'
        cases hp'

lemma spent_after_project {s : SysState ρ κ} (hgood : GoodSys s) {id : String}
    (e : Event ρ κ ω) (hp : (s.step e).2 = some id) : Spent (s.step e).1 id := by
  obtain ⟨r, hstk, hneed, hpost⟩ := step_project_effect hgood e hp
  have hinfl : s.inflight id = none := by
    cases hinf : s.inflight id with
    | none => rfl
    | some o =>
        have hpend := (hgood id).1 (by rw [hinf]; rfl) r hstk
        rcases hneed with hcpd | ⟨hdel, _⟩
        · rw [hpend] at hcpd; cases hcpd
        · rw [hpend] at hdel; cases hdel
  have hcreated : s.everCreated id = true := (hgood id).2.1 (by rw [hstk]; rfl)
  cases e with
  | triggerAsync id' jtype outcome =>
      by_cases hc : s.everCreated id' <;> simp [SysState.step, hc] at hp
  | finish id' =>
      cases hin : s.inflight id' <;> simp [SysState.step, hin] at hp
  | storeSync id' jtype result =>
      by_cases hc : s.everCreated id' <;> simp [SysState.step, hc] at hp
  | getterCall cfg inst uid jobId =>
      have hstep : (s.step (Event.getterCall cfg inst uid jobId)).1
          = { s with gs := (getOrProcessJobResult cfg s.gs inst uid jobId).2.1 } := by
        simp [SysState.step]
      rw [hstep]
      exact ⟨hcreated, hinfl, fun r2 hr2 => hpost r2 (by rw [hstep]; exact hr2)⟩

lemma step_not_project_of_spent {s : SysState ρ κ} (hgood : GoodSys s) {id : String}
    (hsp : Spent s id) (e : Event ρ κ ω) :
    (s.step e).2 ≠ some id ∧ Spent (s.step e).1 id := by
  obtain ⟨hcre, hinf, hrec⟩ := hsp
  have hnp : (s.step e).2 ≠ some id := by
    intro hp
    obtain ⟨r, hstk, hneed, _⟩ := step_project_effect hgood e hp
    rcases hneed with hcpd | ⟨hdel, hcn⟩
    · rcases hrec r hstk with ⟨hd, _⟩ | hpe
      · rw [hcpd] at hd; cases hd
      · rw [hcpd] at hpe; cases hpe
    · rcases hrec r hstk with ⟨_, hcs⟩ | hpe
      · rw [hcn] at hcs; cases hcs
      · rw [hdel] at hpe; cases hpe
  refine ⟨hnp, ?_⟩
  cases e with
  | triggerAsync id' jtype outcome =>
      by_cases hc : s.everCreated id'
      · have hstep : (s.step (Event.triggerAsync (ω := ω) id' jtype outcome)).1 = s := by
          simp [SysState.step, hc]
        rw [hstep]; exact ⟨hcre, hinf, hrec⟩
      · have hne : id' ≠ id := fun h => hc (h ▸ hcre)
        have hstep : (s.step (Event.triggerAsync (ω := ω) id' jtype outcome)).1
            = { gs := { s.gs with store := s.gs.store.set id' (some { status := .pending, jtype := jtype }) },
                inflight := setFun s.inflight id' (some outcome),
                everCreated := setFun s.everCreated id' true } := by
          simp [SysState.step, hc]
        rw [hstep]
        refine ⟨?_, ?_, ?_⟩
        · show setFun s.everCreated id' true id = true
          simp only [setFun, if_neg (Ne.symm hne)]
          exact hcre
        · show setFun s.inflight id' (some outcome) id = none
          simp only [setFun, if_neg (Ne.symm hne)]
          exact hinf
        · intro r hr
          apply hrec
          have h2 : s.gs.store.set id' (some { status := .pending, jtype := jtype }) id
              = s.gs.store id := by
            simp [Store.set, setFun, Ne.symm hne]
          rw [← h2]
          exact hr
  | finish id' =>
      cases hin : s.inflight id' with
      | none =>
          have hstep : (s.step (Event.finish (ω := ω) id')).1 = s := by
            simp [SysState.step, hin]
          rw [hstep]; exact ⟨hcre, hinf, hrec⟩
      | some outcome =>
          have hne : id' ≠ id := by
            intro h
            rw [h, hinf] at hin
            cases hin
          have hmain : ∀ st' : Store ρ κ, st' id = s.gs.store id →
              Spent { gs := { s.gs with store := st' }, inflight := setFun s.inflight id' none, everCreated := s.everCreated } id := by
            intro st' hst'
            refine ⟨hcre, ?_, ?_⟩
            · show setFun s.inflight id' none id = none
              simp only [setFun, if_neg (Ne.symm hne)]
              exact hinf
            · intro r hr
              apply hrec
              rw [← hst']
              exact hr
          cases hsr : s.gs.store id' with
          | none =>
              have hstep : (s.step (Event.finish (ω := ω) id')).1
                  = { gs := { s.gs with store := s.gs.store },
                      inflight := setFun s.inflight id' none,
                      everCreated := s.everCreated } := by
                simp [SysState.step, hin, hsr]
              rw [hstep]
              exact hmain _ rfl
          | some r0 =>
              cases outcome with
              | ok v =>
                  have hstep : (s.step (Event.finish (ω := ω) id')).1
                      = { gs := { s.gs with store := s.gs.store.set id' (some { r0 with status := .completed_pending_delivery, result := some v }) },
                          inflight := setFun s.inflight id' none,
                          everCreated := s.everCreated } := by
                    simp [SysState.step, hin, hsr]
                  rw [hstep]
                  refine hmain _ ?_
                  simp [Store.set, setFun, Ne.symm hne]
              | error m =>
                  have hstep : (s.step (Event.finish (ω := ω) id')).1
                      = { gs := { s.gs with store := s.gs.store.set id' (some { r0 with status := .failed, error := some m }) },
                          inflight := setFun s.inflight id' none,
                          everCreated := s.everCreated } := by
                    simp [SysState.step, hin, hsr]
                  rw [hstep]
                  refine hmain _ ?_
                  simp [Store.set, setFun, Ne.symm hne]
  | storeSync id' jtype result =>
      by_cases hc : s.everCreated id'
      · have hstep : (s.step (Event.storeSync (ω := ω) id' jtype result)).1 = s := by
          simp [SysState.step, hc]
        rw [hstep]; exact ⟨hcre, hinf, hrec⟩
      · have hne : id' ≠ id := fun h => hc (h ▸ hcre)
        have hstep : (s.step (Event.storeSync (ω := ω) id' jtype result)).1
            = { gs := { s.gs with store := s.gs.store.set id' (some { status := .completed_pending_delivery, jtype := jtype, result := some result }) },
                inflight := s.inflight,
                everCreated := setFun s.everCreated id' true } := by
          simp [SysState.step, hc]
        rw [hstep]
        refine ⟨?_, hinf, ?_⟩
        · show setFun s.everCreated id' true id = true
          simp only [setFun, if_neg (Ne.symm hne)]
          exact hcre
        · intro r hr
          apply hrec
          have h2 : s.gs.store.set id' (some { status := .completed_pending_delivery, jtype := jtype, result := some result }) id
              = s.gs.store id := by
            simp [Store.set, setFun, Ne.symm hne]
          rw [← h2]
          exact hr
  | getterCall cfg inst uid jobId =>
      refine ⟨hcre, hinf, ?_⟩
      intro r2 hr2
      have hr2' : (getOrProcessJobResult cfg s.gs inst uid jobId).2.1.store id
          = some r2 := by
        simpa [SysState.step] using hr2
      rcases getter_store_pointwise cfg s.gs inst uid jobId id with
        hpt | hpt | ⟨hjid, r, hrold, hneed, hres⟩
      · rw [hpt] at hr2'
        exact hrec r2 hr2'
      · rw [hpt] at hr2'
        cases hr2'
      · rcases hneed with hcpd | ⟨hdel, hcn⟩
        · rcases hrec r hrold with ⟨hd, _⟩ | hpe
          · rw [hcpd] at hd; cases hd
          · rw [hcpd] at hpe; cases hpe
        · rcases hrec r hrold with ⟨_, hcs⟩ | hpe
          · rw [hcn] at hcs; cases hcs
          · rw [hdel] at hpe; cases hpe

lemma runCountFrom_spent {id : String} :
    ∀ (evs : List (Event ρ κ ω)) (s : SysState ρ κ), GoodSys s → Spent s id →
      runCountFrom s id evs = 0 := by
  intro evs
  induction evs with
  | nil => intro s _ _; rfl
  | cons e rest ih =>
      intro s hgood hsp
      obtain ⟨hne, hsp'⟩ := step_not_project_of_spent hgood hsp e
      unfold runCountFrom
      rw [if_neg hne, ih _ (goodSys_step hgood e) hsp']

lemma runCountFrom_le_one {id : String} :
    ∀ (evs : List (Event ρ κ ω)) (s : SysState ρ κ), GoodSys s →
      runCountFrom s id evs ≤ 1 := by
  intro evs
  induction evs with
  | nil => intro s _; exact Nat.zero_le 1
  | cons e rest ih =>
      intro s hgood
      unfold runCountFrom
      by_cases hp : (s.step e).2 = some id
      · rw [if_pos hp, runCountFrom_spent rest _ (goodSys_step hgood e)
          (spent_after_project hgood e hp)]
      · rw [if_neg hp]
        simpa using ih _ (goodSys_step hgood e)

/-- C1. Along any event trace from the empty system, the projector
(`_process_raw_result`) runs at most once per job id; it runs only on a
record in `completed_pending_delivery` (or `delivered` with missing
cache fields), and afterwards the record is `delivered` with all cache
fields present (so later calls short-circuit to the cache) or in
`processing_error` (after which no later call projects again). -/

theorem projection_at_most_once {ρ κ ω : Type} (evs : List (Event ρ κ ω)) (id : String) :
    runCountFrom SysState.init id evs ≤ 1 ∧
    (∀ (pre : List (Event ρ κ ω)) (e : Event ρ κ ω),
      ((runEvents pre).step e).2 = some id →
      ∃ r, (runEvents pre).gs.store id = some r ∧
        (r.status = .completed_pending_delivery ∨
          (r.status = .delivered ∧ r.cache = none)) ∧
        ∀ r2, ((runEvents pre).step e).1.gs.store id = some r2 →
          ((r2.status = .delivered ∧ r2.cache.isSome) ∨
            r2.status = .processing_error)) := by
  constructor
  · exact runCountFrom_le_one evs SysState.init goodSys_init
  · intro pre e hp
    exact step_project_effect (goodSys_run pre) e hp

/-- Witness for C1 on a concrete trace: a sync job projected by one
getter call and read from cache by the second. -/
theorem projection_at_most_once_witness :
    runCountFrom (SysState.init : SysState Nat Nat) "j" (w1pre ++ [w1get, w1get]) ≤ 1 ∧
    (∃ r, (runEvents w1pre).gs.store "j" = some r ∧
      (r.status = .completed_pending_delivery ∨
        (r.status = .delivered ∧ r.cache = none)) ∧
      ∀ r2, ((runEvents w1pre).step w1get).1.gs.store "j" = some r2 →
        ((r2.status = .delivered ∧ r2.cache.isSome) ∨
          r2.status = .processing_error)) :=
  ⟨(projection_at_most_once (w1pre ++ [w1get, w1get]) "j").1,
   (projection_at_most_once (w1pre ++ [w1get, w1get]) "j").2 w1pre w1get (by decide)⟩

lemma step_status_monotonic {s : SysState ρ κ} (hgood : GoodSys s) (e : Event ρ κ ω)
    {k : String} {r r' : JobRecord ρ κ}
    (hr : s.gs.store k = some r) (hr' : (s.step e).1.gs.store k = some r') :
    r.status = r'.status ∨ allowedEdge r.status r'.status = true := by
  cases e with
  | triggerAsync id jtype outcome =>
      by_cases hc : s.everCreated id
      · have hstep : (s.step (Event.triggerAsync (ω := ω) id jtype outcome)).1 = s := by
          simp [SysState.step, hc]
        rw [hstep] at hr'
        rw [hr] at hr'
        exact Or.inl (congrArg JobRecord.status (Option.some.inj hr'))
      · by_cases hk : k = id
        · subst hk
          exact absurd ((hgood k).2.1 (by rw [hr]; rfl)) hc
        · have : (s.step (Event.triggerAsync (ω := ω) id jtype outcome)).1.gs.store k
              = s.gs.store k := by
            simp [SysState.step, hc, Store.set, setFun, hk]
          rw [this, hr] at hr'
          exact Or.inl (congrArg JobRecord.status (Option.some.inj hr'))
  | finish id =>
      cases hin : s.inflight id with
      | none =>
          have hstep : (s.step (Event.finish (ω := ω) id)).1 = s := by
            simp [SysState.step, hin]
          rw [hstep] at hr'
          rw [hr] at hr'
          exact Or.inl (congrArg JobRecord.status (Option.some.inj hr'))
      | some outcome =>
          by_cases hk : k = id
          · subst hk
            have hpend : r.status = .pending := (hgood k).1 (by rw [hin]; rfl) r hr
            cases outcome with
            | ok v =>
                have hst' : (s.step (Event.finish (ω := ω) k)).1.gs.store k
                    = some { r with status := .completed_pending_delivery, result := some v } := by
                  simp [SysState.step, hin, hr, Store.set, setFun]
                rw [hst'] at hr'
                cases hr'
                rw [hpend]
                exact Or.inr rfl
            | error m =>
                have hst' : (s.step (Event.finish (ω := ω) k)).1.gs.store k
                    = some { r with status := .failed, error := some m } := by
                  simp [SysState.step, hin, hr, Store.set, setFun]
                rw [hst'] at hr'
                cases hr'
                rw [hpend]
                exact Or.inr rfl
          · have : (s.step (Event.finish (ω := ω) id)).1.gs.store k = s.gs.store k := by
              cases hsr : s.gs.store id with
              | none => simp [SysState.step, hin, hsr]
              | some r0 =>
                  cases outcome with
                  | ok v => simp [SysState.step, hin, hsr, Store.set, setFun, hk]
                  | error m => simp [SysState.step, hin, hsr, Store.set, setFun, hk]
            rw [this, hr] at hr'
            exact Or.inl (congrArg JobRecord.status (Option.some.inj hr'))
  | storeSync id jtype result =>
      by_cases hc : s.everCreated id
      · have hstep : (s.step (Event.storeSync (ω := ω) id jtype result)).1 = s := by
          simp [SysState.step, hc]
        rw [hstep] at hr'
        rw [hr] at hr'
        exact Or.inl (congrArg JobRecord.status (Option.some.inj hr'))
      · by_cases hk : k = id
        · subst hk
          exact absurd ((hgood k).2.1 (by rw [hr]; rfl)) hc
        · have : (s.step (Event.storeSync (ω := ω) id jtype result)).1.gs.store k
              = s.gs.store k := by
            simp [SysState.step, hc, Store.set, setFun, hk]
          rw [this, hr] at hr'
          exact Or.inl (congrArg JobRecord.status (Option.some.inj hr'))
  | getterCall cfg inst uid jobId =>
      have hr2' : (getOrProcessJobResult cfg s.gs inst uid jobId).2.1.store k
          = some r' := by
        simpa [SysState.step] using hr'
      rcases getter_store_pointwise cfg s.gs inst uid jobId k with
        hpt | hpt | ⟨hjid, r0, hrold, hneed, hres⟩
      · rw [hpt, hr] at hr2'
        exact Or.inl (congrArg JobRecord.status (Option.some.inj hr2'))
      · rw [hpt] at hr2'
        cases hr2'
      · have hr0 : r0 = r := by
          rw [hr] at hrold
          exact (Option.some.inj hrold).symm
        subst hr0
        have hcpd : r0.status = .completed_pending_delivery := by
          rcases hneed with hcpd | ⟨hdel, hcn⟩
          · exact hcpd
          · have := (hgood k).2.2.2 r0 hr hdel
            rw [hcn] at this
            cases this
        rcases hres with ⟨c, hc⟩ | ⟨m, hm⟩
        · rw [hc] at hr2'
          cases hr2'
          rw [hcpd]
          exact Or.inr rfl
        · rw [hm] at hr2'
          cases hr2'
          rw [hcpd]
          exact Or.inr rfl

/-- C4. Status transitions along any event trace are monotonic: when
a record survives a step, its status is unchanged or follows one of the
edges pending → completed_pending_delivery, pending → failed,
completed_pending_delivery → delivered,
completed_pending_delivery → processing_error; no operation performs any
other transition and none regresses. -/

theorem status_transitions_monotonic {ρ κ ω : Type}
    (pre : List (Event ρ κ ω)) (e : Event ρ κ ω) (k : String)
    (r r' : JobRecord ρ κ)
    (hr : (runEvents pre).gs.store k = some r)
    (hr' : (runEvents (pre ++ [e])).gs.store k = some r') :
    r.status = r'.status ∨ allowedEdge r.status r'.status = true := by
  have hrun : runEvents (pre ++ [e]) = ((runEvents pre).step e).1 := by
    unfold runEvents
    rw [List.foldl_append]
    rfl
  rw [hrun] at hr'
  exact step_status_monotonic (goodSys_run pre) e hr hr'

/-- Witness for C4: the background completion of an async job moves it
from pending along an allowed edge. -/

theorem status_transitions_monotonic_witness :
    ({ status := .pending, jtype := "t2i" } : JobRecord Nat Nat).status
        = ({ status := .completed_pending_delivery, jtype := "t2i",
             result := some 5 } : JobRecord Nat Nat).status ∨
    allowedEdge ({ status := .pending, jtype := "t2i" } : JobRecord Nat Nat).status
        ({ status := .completed_pending_delivery, jtype := "t2i",
           result := some 5 } : JobRecord Nat Nat).status = true :=
  status_transitions_monotonic (ω := Nat)
    [Event.triggerAsync "j" "t2i" (Except.ok 5)] (Event.finish "j") "j"
    { status := .pending, jtype := "t2i" }
    { status := .completed_pending_delivery, jtype := "t2i", result := some 5 }
    (by decide) (by decide)

end Livepeer
